import Mathlib

/-!
Verification development for `scripts/domo-to-backend-sync.py`:
a shallow embedding in Lean 4 of the script's data model and operations
(dotenv loading, payload building, dataset fingerprinting, chunked sync
transport, driver exit codes), followed by theorems about the claims of
the specification.

Conventions of the embedding:
* Python dicts become association lists `List (String × α)` in insertion
  order; `d[k] = v` is `dictSet` (replace in place, else append), lookup is
  first-match `dictLookup` (keys of real dicts are unique).
* JSON values become the inductive `Json`; numbers are modelled as `Int`
  (every numeric appearing in the claims is an integer).
* Network and file effects become oracles passed as functions: the result
  of `requests.post` is a `NetResult` supplied by an oracle
  `net : Nat → SyncRequest → NetResult` (the `Nat` is the index of the
  request in the run, so results may vary over time); `json.load` of a
  file is `String → Option Json` (`none` = any exception).
* Python exceptions are explicit: caught exceptions inside
  `_collect_response` surface as the `raised` field of `CollectDelta` and
  are re-caught by `post_sync`'s handler exactly as in the source.
  Exception message texts are abbreviated; no claim depends on them.
-/

namespace DomoSync

/-- First-match lookup in an association list (Python dict lookup; real
dicts have unique keys so first match is the match). -/
def dictLookup (d : List (String × α)) (k : String) : Option α :=
  match d with
  | [] => none
  | (k', v) :: rest => if k' = k then some v else dictLookup rest k

/-- Python `k in d`. -/
def dictHas (d : List (String × α)) (k : String) : Bool :=
  match d with
  | [] => false
  | (k', _) :: rest => k' = k || dictHas rest k

/-- Python `d[k] = v`: replace the value in place if the key exists
(keeping its position), otherwise append the new binding. -/
def dictSet (d : List (String × α)) (k : String) (v : α) : List (String × α) :=
  match d with
  | [] => [(k, v)]
  | (k', v') :: rest => if k' = k then (k', v) :: rest else (k', v') :: dictSet rest k v

/-- Python `del d[k]`. -/
def dictDel (d : List (String × α)) (k : String) : List (String × α) :=
  match d with
  | [] => []
  | (k', v') :: rest => if k' = k then rest else (k', v') :: dictDel rest k

/-- The whitespace characters stripped by Python `str.strip()`. -/
def isPySpace (c : Char) : Bool :=
  c = ' ' || c = Char.ofNat 9 || c = Char.ofNat 10 || c = Char.ofNat 13 ||
  c = Char.ofNat 11 || c = Char.ofNat 12

/-- Drop trailing characters satisfying `p`. -/
def dropTrailing (p : Char → Bool) (l : List Char) : List Char :=
  (l.reverse.dropWhile p).reverse

/-- Strip characters satisfying `p` from both ends. -/
def stripList (p : Char → Bool) (l : List Char) : List Char :=
  dropTrailing p (l.dropWhile p)

/-- Python `s.strip()`. -/
def pyStrip (s : String) : String := String.mk (stripList isPySpace s.data)

/-- The characters stripped by `.strip("'\"")` in `load_dotenv`. -/
def isQuoteChar (c : Char) : Bool := c = Char.ofNat 34 || c = Char.ofNat 39

/-- Python `.strip("'\"")`. -/
def pyStripQuotes (s : String) : String := String.mk (stripList isQuoteChar s.data)

/-- Python `s.rstrip("/")` (used on the base URL). -/
def pyRstripSlashes (s : String) : String :=
  String.mk (dropTrailing (fun c => c = '/') s.data)

/-- Split a character list at the first `'='`: Python
`line.partition("=")` / `pair.split("=", 1)` (the separator is present in
every use site, guarded by an `in` test). -/
def partitionEq : List Char → List Char × List Char
  | [] => ([], [])
  | c :: rest =>
    if c = '=' then ([], rest)
    else
      let p := partitionEq rest
      (c :: p.1, p.2)

/-- The decimal digit characters. -/
def digitChar (d : Nat) : Char :=
  if d = 0 then '0' else if d = 1 then '1' else if d = 2 then '2'
  else if d = 3 then '3' else if d = 4 then '4' else if d = 5 then '5'
  else if d = 6 then '6' else if d = 7 then '7' else if d = 8 then '8' else '9'

/-- Decimal digits of a natural number, most significant first
(Python `str(n)` for `n ≥ 0`). -/
def natDigits (n : Nat) : List Char :=
  if h : n < 10 then [digitChar n]
  else natDigits (n / 10) ++ [digitChar (n % 10)]
termination_by n
decreasing_by exact Nat.div_lt_self (by omega) (by omega)

/-- Python `str(n)` for a natural number. -/
def natDumps (n : Nat) : String := String.mk (natDigits n)

/-- Python `str(i)` / `json.dumps(i)` for an integer. -/
def intDigits (i : Int) : List Char :=
  if i < 0 then '-' :: natDigits i.natAbs else natDigits i.toNat

/-- JSON values as produced by `json.load` / consumed by `json.dumps`.
Numbers are modelled as integers; `obj` is a parsed Python dict
(insertion-ordered, unique keys). -/
inductive Json where
  | null : Json
  | bool : Bool → Json
  | num : Int → Json
  | str : String → Json
  | arr : List Json → Json
  | obj : List (String × Json) → Json
deriving Repr

/-- Python truthiness of a JSON value (`if data.get("errors"):`). -/
def isTruthy : Json → Bool
  | .null => false
  | .bool b => b
  | .num n => n != 0
  | .str s => s != ""
  | .arr xs => !xs.isEmpty
  | .obj fs => !fs.isEmpty

/-- Lowercase hexadecimal digit characters. -/
def hexDigitChar (d : Nat) : Char :=
  if d < 10 then digitChar d
  else if d = 10 then 'a' else if d = 11 then 'b' else if d = 12 then 'c'
  else if d = 13 then 'd' else if d = 14 then 'e' else 'f'

/-- Four lowercase hex digits (for `\uXXXX` escapes). -/
def hex4 (n : Nat) : List Char :=
  [hexDigitChar (n / 4096 % 16), hexDigitChar (n / 256 % 16),
   hexDigitChar (n / 16 % 16), hexDigitChar (n % 16)]

/-- Escape one character as CPython's `json.dumps` does with
`ensure_ascii=True`: printable ASCII other than quote and backslash is
kept, the short escapes are used for the usual control characters, and
everything else becomes `\uXXXX` (a surrogate pair above U+FFFF). -/
def escChar (c : Char) : List Char :=
  let n := c.toNat
  if n = 34 then [Char.ofNat 92, Char.ofNat 34]
  else if n = 92 then [Char.ofNat 92, Char.ofNat 92]
  else if n = 8 then [Char.ofNat 92, 'b']
  else if n = 9 then [Char.ofNat 92, 't']
  else if n = 10 then [Char.ofNat 92, 'n']
  else if n = 12 then [Char.ofNat 92, 'f']
  else if n = 13 then [Char.ofNat 92, 'r']
  else if n < 32 || n > 126 then
    if n ≤ 65535 then Char.ofNat 92 :: 'u' :: hex4 n
    else (Char.ofNat 92 :: 'u' :: hex4 (55296 + (n - 65536) / 1024)) ++
         (Char.ofNat 92 :: 'u' :: hex4 (56320 + (n - 65536) % 1024))
  else [c]

/-- A JSON string literal: quote, escaped characters, quote. -/
def escString (s : String) : List Char :=
  Char.ofNat 34 :: (s.data.map escChar).flatten ++ [Char.ofNat 34]

mutual

/-- `json.dumps(v)` with CPython's defaults (separators `", "` and
`": "`, `ensure_ascii=True`), as a character list. -/
def jsonDumpsChars : Json → List Char
  | .null => "null".data
  | .bool true => "true".data
  | .bool false => "false".data
  | .num i => intDigits i
  | .str s => escString s
  | .arr xs => '[' :: jsonListDumps xs ++ [']']
  | .obj fs => Char.ofNat 123 :: jsonObjDumps fs ++ [Char.ofNat 125]

/-- Elements of an array, joined by `", "`. -/
def jsonListDumps : List Json → List Char
  | [] => []
  | [x] => jsonDumpsChars x
  | x :: y :: rest => jsonDumpsChars x ++ ',' :: ' ' :: jsonListDumps (y :: rest)

/-- Members of an object, `"key": value` joined by `", "`. -/
def jsonObjDumps : List (String × Json) → List Char
  | [] => []
  | [(k, v)] => escString k ++ ':' :: ' ' :: jsonDumpsChars v
  | (k, v) :: q :: rest =>
    escString k ++ ':' :: ' ' :: jsonDumpsChars v ++ ',' :: ' ' :: jsonObjDumps (q :: rest)

end

/-- `json.dumps(v)` as a string. -/
def jsonDumps (v : Json) : String := String.mk (jsonDumpsChars v)

/-- UTF-8 encoding of one code point. -/
def utf8Char (n : Nat) : List Nat :=
  if n < 128 then [n]
  else if n < 2048 then [192 + n / 64, 128 + n % 64]
  else if n < 65536 then [224 + n / 4096, 128 + n / 64 % 64, 128 + n % 64]
  else [240 + n / 262144, 128 + n / 4096 % 64, 128 + n / 64 % 64, 128 + n % 64]

/-- Python `s.encode()`: UTF-8 bytes of a character list. -/
def utf8Bytes (cs : List Char) : List Nat :=
  (cs.map (fun c => utf8Char c.toNat)).flatten

end DomoSync

namespace DomoSync

/-! ### SHA-256 (the `hashlib.sha256` call in `_data_hash`), FIPS 180-4.
Words are `Nat` reduced modulo `2 ^ 32` wherever the machine would
overflow. -/

/-- Reduce to a 32-bit word. -/
def wmask (x : Nat) : Nat := x % 4294967296

/-- Rotate a 32-bit word right by `n` bits. -/
def rotr (n x : Nat) : Nat := wmask ((x >>> n) + x % 2 ^ n * 2 ^ (32 - n))

/-- 32-bit complement of an in-range word. -/
def wnot (x : Nat) : Nat := 4294967295 ^^^ x

/-- SHA-256 `Ch`. -/
def shaCh (x y z : Nat) : Nat := (x &&& y) ^^^ (wnot x &&& z)

/-- SHA-256 `Maj`. -/
def shaMaj (x y z : Nat) : Nat := (x &&& y) ^^^ (x &&& z) ^^^ (y &&& z)

/-- SHA-256 `Σ0`. -/
def bigSigma0 (x : Nat) : Nat := rotr 2 x ^^^ rotr 13 x ^^^ rotr 22 x

/-- SHA-256 `Σ1`. -/
def bigSigma1 (x : Nat) : Nat := rotr 6 x ^^^ rotr 11 x ^^^ rotr 25 x

/-- SHA-256 `σ0`. -/
def smallSigma0 (x : Nat) : Nat := rotr 7 x ^^^ rotr 18 x ^^^ (x >>> 3)

/-- SHA-256 `σ1`. -/
def smallSigma1 (x : Nat) : Nat := rotr 17 x ^^^ rotr 19 x ^^^ (x >>> 10)

/-- The 64 SHA-256 round constants. -/
def shaK : List Nat :=
  [1116352408, 1899447441, 3049323471, 3921009573, 961987163, 1508970993,
   2453635748, 2870763221, 3624381080, 310598401, 607225278, 1426881987,
   1925078388, 2162078206, 2614888103, 3248222580, 3835390401, 4022224774,
   264347078, 604807628, 770255983, 1249150122, 1555081692, 1996064986,
   2554220882, 2821834349, 2952996808, 3210313671, 3336571891, 3584528711,
   113926993, 338241895, 666307205, 773529912, 1294757372, 1396182291,
   1695183700, 1986661051, 2177026350, 2456956037, 2730485921, 2820302411,
   3259730800, 3345764771, 3516065817, 3600352804, 4094571909, 275423344,
   430227734, 506948616, 659060556, 883997877, 958139571, 1322822218,
   1537002063, 1747873779, 1955562222, 2024104815, 2227730452, 2361852424,
   2428436474, 2756734187, 3204031479, 3329325298]

/-- The eight working words of a SHA-256 state. -/
structure Digest where
  w0 : Nat
  w1 : Nat
  w2 : Nat
  w3 : Nat
  w4 : Nat
  w5 : Nat
  w6 : Nat
  w7 : Nat
deriving Repr, DecidableEq

/-- Initial SHA-256 hash value. -/
def initH : Digest :=
  ⟨1779033703, 3144134277, 1013904242, 2773480762, 1359893119, 2600822924, 528734635, 1541459225⟩

/-- Extend a 16-word block schedule by `k` further words. -/
def wextend (w : List Nat) : Nat → List Nat
  | 0 => w
  | k + 1 =>
    let t := w.length
    wextend (w ++ [wmask (smallSigma1 (w.getD (t - 2) 0) + w.getD (t - 7) 0 +
      smallSigma0 (w.getD (t - 15) 0) + w.getD (t - 16) 0)]) k

/-- One round of the SHA-256 compression function. -/
def shaRound (st : Digest) (kw : Nat × Nat) : Digest :=
  let t1 := wmask (st.w7 + bigSigma1 st.w4 + shaCh st.w4 st.w5 st.w6 + kw.1 + kw.2)
  let t2 := wmask (bigSigma0 st.w0 + shaMaj st.w0 st.w1 st.w2)
  ⟨wmask (t1 + t2), st.w0, st.w1, st.w2, wmask (st.w3 + t1), st.w4, st.w5, st.w6⟩

/-- Compress one 16-word block into the running digest. -/
def compressBlock (h : Digest) (block : List Nat) : Digest :=
  let w := wextend block 48
  let f := (shaK.zip w).foldl shaRound h
  ⟨wmask (h.w0 + f.w0), wmask (h.w1 + f.w1), wmask (h.w2 + f.w2), wmask (h.w3 + f.w3),
   wmask (h.w4 + f.w4), wmask (h.w5 + f.w5), wmask (h.w6 + f.w6), wmask (h.w7 + f.w7)⟩

/-- The message length as eight big-endian bytes (length in bits,
modulo `2 ^ 64`). -/
def lenBytes (n : Nat) : List Nat :=
  [n >>> 56 % 256, n >>> 48 % 256, n >>> 40 % 256, n >>> 32 % 256,
   n >>> 24 % 256, n >>> 16 % 256, n >>> 8 % 256, n % 256]

/-- SHA-256 padding: a `0x80` byte, zeros to 56 mod 64, then the bit
length. -/
def padMessage (msg : List Nat) : List Nat :=
  msg ++ [128] ++ List.replicate ((55 - msg.length % 64 + 64) % 64) 0 ++
    lenBytes (msg.length * 8)

/-- Group bytes into 32-bit big-endian words. -/
def toWords : List Nat → List Nat
  | a :: b :: c :: d :: rest => (((a * 256 + b) * 256 + c) * 256 + d) :: toWords rest
  | _ => []

/-- Split a list into consecutive chunks of `n` elements (the last may be
shorter): the Python slicing loop
`[xs[j : j + n] for j in range(0, len(xs), n)]`. -/
def chunkList (n : Nat) (xs : List α) : List (List α) :=
  match xs with
  | [] => []
  | y :: ys =>
    if h2 : n = 0 then []
    else (y :: ys).take n :: chunkList n ((y :: ys).drop n)
termination_by xs.length
decreasing_by
  simp only [List.length_drop, List.length_cons]
  omega

/-- SHA-256 of a byte sequence, as the eight digest words. -/
def sha256Digest (msg : List Nat) : Digest :=
  (chunkList 16 (toWords (padMessage msg))).foldl compressBlock initH

/-- Eight lowercase hex digits of a 32-bit word. -/
def wordHexChars (w : Nat) : List Char :=
  [hexDigitChar (w >>> 28 % 16), hexDigitChar (w >>> 24 % 16),
   hexDigitChar (w >>> 20 % 16), hexDigitChar (w >>> 16 % 16),
   hexDigitChar (w >>> 12 % 16), hexDigitChar (w >>> 8 % 16),
   hexDigitChar (w >>> 4 % 16), hexDigitChar (w % 16)]

/-- `hashlib.sha256(...).hexdigest()`: 64 lowercase hex characters. -/
def digestHexChars (d : Digest) : List Char :=
  wordHexChars d.w0 ++ wordHexChars d.w1 ++ wordHexChars d.w2 ++ wordHexChars d.w3 ++
  wordHexChars d.w4 ++ wordHexChars d.w5 ++ wordHexChars d.w6 ++ wordHexChars d.w7

/-- The string hashed by `_data_hash`:
`json.dumps(len(rows)) + json.dumps([json.dumps(r) for r in rows[:50]])`,
as a character list. -/
def dataHashPayloadChars (rows : List Json) : List Char :=
  intDigits (Int.ofNat rows.length) ++
    jsonDumpsChars (.arr ((rows.take 50).map fun r => Json.str (String.mk (jsonDumpsChars r))))

/-- `_data_hash(rows)`: the first 32 hex characters of the SHA-256 of the
payload string (source lines 183–186). -/
def dataHash (rows : List Json) : String :=
  String.mk ((digestHexChars (sha256Digest (utf8Bytes (dataHashPayloadChars rows)))).take 32)

end DomoSync

namespace DomoSync

/-! ### Payload building (`load_local_json`, `build_payload_from_local`,
`build_payload_from_domo`, `load_dotenv`). -/

/-- The payload keys accepted by the backend (source `SYNC_KEYS`). -/
def SYNC_KEYS : List String :=
  ["leasing", "MMRData", "unitbyunittradeout", "portfolioUnitDetails",
   "units", "unitmix", "pricing", "recentrents"]

/-- Env var names for Domo dataset IDs (source `DATASET_ID_ENV`). -/
def DATASET_ID_ENV : List (String × String) :=
  [("leasing", "DOMO_DATASET_LEASING"), ("MMRData", "DOMO_DATASET_MMR"),
   ("unitbyunittradeout", "DOMO_DATASET_TRADEOUT"), ("portfolioUnitDetails", "DOMO_DATASET_PUD"),
   ("units", "DOMO_DATASET_UNITS"), ("unitmix", "DOMO_DATASET_UNITMIX"),
   ("pricing", "DOMO_DATASET_PRICING"), ("recentrents", "DOMO_DATASET_RECENTRENTS")]

/-- `load_local_json(path)`: the file oracle gives the parsed JSON value
(`none` = the open or `json.load` raised). A JSON array is the row list
directly; any other value becomes a one-row list. -/
def load_local_json (fileO : String → Option Json) (path : String) : Option (List Json) :=
  match fileO path with
  | none => none
  | some (.arr xs) => some xs
  | some v => some [v]

/-- One iteration of the loop in `build_payload_from_local`: unknown keys
are skipped with a warning, a load failure is caught and skipped. -/
def localStep (fileO : String → Option Json) (payload : List (String × List Json))
    (kp : String × String) : List (String × List Json) :=
  if kp.1 ∈ SYNC_KEYS then
    match load_local_json fileO kp.2 with
    | some rows => dictSet payload kp.1 rows
    | none => payload
  else payload

/-- `build_payload_from_local(local_paths)`. -/
def build_payload_from_local (fileO : String → Option Json)
    (localPaths : List (String × String)) : List (String × List Json) :=
  localPaths.foldl (localStep fileO) []

/-- One iteration of the loop in `build_payload_from_domo`: empty IDs and
skip keys are not fetched; an export failure is caught and skipped.
The oracle maps a dataset ID to its exported rows (`none` = raised). -/
def domoStep (domoO : String → Option (List Json)) (skipKeys : List String)
    (payload : List (String × List Json)) (p : String × String) : List (String × List Json) :=
  if p.2 = "" || p.1 ∈ skipKeys then payload
  else
    match domoO p.2 with
    | some rows => dictSet payload p.1 rows
    | none => payload

/-- `build_payload_from_domo(client_id, client_secret, dataset_ids, skip_keys)`
after the token was obtained. -/
def build_payload_from_domo (domoO : String → Option (List Json))
    (datasetIds : List (String × String)) (skipKeys : List String) :
    List (String × List Json) :=
  datasetIds.foldl (domoStep domoO skipKeys) []

/-- One line of the `.env` loop in `load_dotenv`: strip, skip blanks,
comments and lines without `=`, split at the first `=`, strip the key,
strip whitespace then quotes from the value, and set the variable only
when the key is nonempty and not already in the environment. -/
def dotenvLine (env : List (String × String)) (line : String) : List (String × String) :=
  let l := pyStrip line
  if l = "" then env
  else if l.data.head? = some '#' then env
  else if !l.data.contains '=' then env
  else
    let p := partitionEq l.data
    let key := pyStrip (String.mk p.1)
    let value := pyStripQuotes (pyStrip (String.mk p.2))
    if key ≠ "" && !(dictLookup env key).isSome then dictSet env key value
    else env

/-- `load_dotenv()` applied to the lines of the selected `.env` file,
transforming the environment mapping. -/
def load_dotenv (env : List (String × String)) (lines : List String) :
    List (String × String) :=
  lines.foldl dotenvLine env

end DomoSync

namespace DomoSync

/-! ### Sync transport (`post_sync`, `_collect_response`). -/

/-- The chunk threshold (source `CHUNK_ROWS`). -/
def CHUNK_ROWS : Nat := 5000

/-- One HTTP POST issued by the script: the sync URL, the single payload
key, the rows in the body `{key: rows}`, and the headers dict. -/
structure SyncRequest where
  url : String
  key : String
  body : List Json
  headers : List (String × String)
deriving Repr

/-- What `requests.post` produced: a raised exception (connection error,
timeout, …), or a response with a status code, an optionally-parseable
JSON body (`none` = `r.json()` raises `ValueError`), and the raw text. -/
inductive NetResult where
  | exn : String → NetResult
  | resp : Nat → Option Json → String → NetResult

/-- The accumulators `all_synced`, `all_skipped`, `all_errors` of
`post_sync`. -/
structure SyncState where
  synced : List Json
  skipped : List Json
  errors : List Json
deriving Repr

/-- The dict returned by `post_sync`. -/
structure SyncResult where
  success : Bool
  synced : List Json
  skipped : List Json
  errors : Option (List Json)
deriving Repr

/-- An error record `{"dataset": key, "message": msg}`. -/
def mkErr (key msg : String) : Json :=
  .obj [("dataset", .str key), ("message", .str msg)]

/-- Append one error record to the state. -/
def addErr (st : SyncState) (key msg : String) : SyncState :=
  { st with errors := st.errors ++ [mkErr key msg] }

/-- Python `data.get(field)` on a parsed JSON value: an `AttributeError`
when the value is not a dict. -/
def pyGet (v : Json) (field : String) : Except String (Option Json) :=
  match v with
  | .obj fs => .ok (dictLookup fs field)
  | _ => .error "AttributeError"

/-- Python `list.extend(x)`: the elements `x` yields — arrays yield their
elements, strings their characters, dicts their keys; anything else is a
`TypeError`. -/
def pyIter : Json → Except String (List Json)
  | .arr xs => .ok xs
  | .str s => .ok (s.data.map fun c => .str (String.mk [c]))
  | .obj fs => .ok (fs.map fun p => Json.str p.1)
  | _ => .error "TypeError"

/-- The net effect of the body of `_collect_response` on a parsed JSON
body: what gets appended to each accumulator, and whether an uncaught
exception escapes (`raised`); appends made before the exception persist,
exactly as the Python mutations do. -/
structure CollectDelta where
  synced : List Json
  skipped : List Json
  errors : List Json
  raised : Option String
deriving Repr

/-- `_collect_response` on a successfully parsed body `data`:
`all_synced.extend(data.get("synced", []))`,
`all_skipped.extend(data.get("skipped", []))`, then
`if data.get("errors"): all_errors.extend(data.get("errors", []))`. -/
def collectCore (v : Json) : CollectDelta :=
  match pyGet v "synced" with
  | .error e => ⟨[], [], [], some e⟩
  | .ok sf =>
    match pyIter (sf.getD (.arr [])) with
    | .error e => ⟨[], [], [], some e⟩
    | .ok xs =>
      match pyGet v "skipped" with
      | .error e => ⟨xs, [], [], some e⟩
      | .ok kf =>
        match pyIter (kf.getD (.arr [])) with
        | .error e => ⟨xs, [], [], some e⟩
        | .ok ys =>
          match pyGet v "errors" with
          | .error e => ⟨xs, ys, [], some e⟩
          | .ok ef =>
            match ef with
            | none => ⟨xs, ys, [], none⟩
            | some ev =>
              if isTruthy ev then
                match pyIter ev with
                | .error e => ⟨xs, ys, [], some e⟩
                | .ok es => ⟨xs, ys, es, none⟩
              else ⟨xs, ys, [], none⟩

/-- `_collect_response(r, key, ...)` (source lines 251–266): an
unparseable body is caught inside and recorded as an error; on a parsed
body the extends are applied and a dict-shape exception propagates to the
caller (the `Option String`). -/
def _collect_response (key : String) (status : Nat) (body : Option Json) (text : String)
    (st : SyncState) : SyncState × Option String :=
  match body with
  | none =>
    (addErr st key ("Response not JSON (status " ++ natDumps status ++ "): " ++
      String.mk (text.data.take 200)), none)
  | some v =>
    let d := collectCore v
    ({ synced := st.synced ++ d.synced, skipped := st.skipped ++ d.skipped,
       errors := st.errors ++ d.errors }, d.raised)

/-- Whether handling this network result takes the `except` path of
`post_sync`'s per-request `try` (a transport exception, or an exception
escaping `_collect_response`); in the chunk loop this is what `break`s. -/
def breaks : NetResult → Bool
  | .exn _ => true
  | .resp _ none _ => false
  | .resp _ (some v) _ => (collectCore v).raised.isSome

/-- The headers of chunk `c` (0-based) of a chunked upload: content type,
first/last chunk markers, and on the last chunk only the total row count
and the dataset fingerprint (source lines 223–228). -/
def mkChunkHeaders (numChunks totalRows : Nat) (fullHash : String) (c : Nat) :
    List (String × String) :=
  [("Content-Type", "application/json"),
   ("X-Leasing-Sync-First-Chunk", if c = 0 then "true" else "false"),
   ("X-Leasing-Sync-Last-Chunk", if c = numChunks - 1 then "true" else "false")] ++
  (if c = numChunks - 1 then
    [("X-Leasing-Sync-Total-Rows", natDumps totalRows),
     ("X-Leasing-Sync-Data-Hash", fullHash)]
   else [])

/-- The chunk loop of `post_sync` (source lines 220–242), starting at
chunk index `c` with request counter `cnt`. Returns the final state, the
next request counter, and the requests issued by this dataset. A caught
exception appends an error record and `break`s; a response (even non-JSON
or reporting errors) continues to the next chunk. -/
def sendChunks (net : Nat → SyncRequest → NetResult) (url key : String)
    (numChunks totalRows : Nat) (fullHash : String) :
    List (List Json) → Nat → SyncState → Nat → SyncState × Nat × List SyncRequest
  | [], _, st, cnt => (st, cnt, [])
  | chunk :: rest, c, st, cnt =>
    let req : SyncRequest := ⟨url, key, chunk, mkChunkHeaders numChunks totalRows fullHash c⟩
    match net cnt req with
    | .exn msg => (addErr st key msg, cnt + 1, [req])
    | .resp status body text =>
      match _collect_response key status body text st with
      | (st1, none) =>
        let r := sendChunks net url key numChunks totalRows fullHash rest (c + 1) st1 (cnt + 1)
        (r.1, r.2.1, req :: r.2.2)
      | (st1, some e) => (addErr st1 key e, cnt + 1, [req])

/-- The per-dataset body of `post_sync`'s loop (source lines 198–242):
at or below `CHUNK_ROWS` rows, one request with body `{key: rows}` and
only the content-type header; above it, the chunked upload with the
fingerprint computed from the full dataset before chunking. -/
def processDataset (net : Nat → SyncRequest → NetResult) (url key : String)
    (rows : List Json) (st : SyncState) (cnt : Nat) : SyncState × Nat × List SyncRequest :=
  if rows.length ≤ CHUNK_ROWS then
    let req : SyncRequest := ⟨url, key, rows, [("Content-Type", "application/json")]⟩
    match net cnt req with
    | .exn msg => (addErr st key msg, cnt + 1, [req])
    | .resp status body text =>
      match _collect_response key status body text st with
      | (st1, none) => (st1, cnt + 1, [req])
      | (st1, some e) => (addErr st1 key e, cnt + 1, [req])
  else
    let chunks := chunkList CHUNK_ROWS rows
    sendChunks net url key chunks.length rows.length (dataHash rows) chunks 0 st cnt

/-- The dataset loop of `post_sync`: datasets are processed in payload
order unconditionally (an earlier dataset's failure never stops the
loop). -/
def syncLoop (net : Nat → SyncRequest → NetResult) (url : String) :
    List (String × List Json) → SyncState → Nat → SyncState × Nat × List SyncRequest
  | [], st, cnt => (st, cnt, [])
  | (key, rows) :: rest, st, cnt =>
    let r1 := processDataset net url key rows st cnt
    let r2 := syncLoop net url rest r1.1 r1.2.1
    (r2.1, r2.2.1, r1.2.2 ++ r2.2.2)

/-- `post_sync(base_url, payload)` (source lines 189–248), returning the
result dict and the full sequence of requests issued. -/
def post_sync (net : Nat → SyncRequest → NetResult) (base_url : String)
    (payload : List (String × List Json)) : SyncResult × List SyncRequest :=
  let url := pyRstripSlashes base_url ++ "/api/leasing/sync"
  let r := syncLoop net url payload ⟨[], [], []⟩ 0
  ({ success := r.1.errors.isEmpty,
     synced := r.1.synced,
     skipped := r.1.skipped,
     errors := if r.1.errors.isEmpty then none else some r.1.errors }, r.2.2)

end DomoSync

namespace DomoSync

/-! ### Driver (`main`, source lines 269–352). -/

/-- The parsed command-line arguments. -/
structure Args where
  localArgs : Option (List String)
  dryRun : Bool
  skipPud : Bool
  only : Option String

/-- Parsing of the `--local KEY=PATH` pairs (source lines 303–309): a
pair without `=` aborts with exit code 1, otherwise split on the first
`=` and strip both parts. -/
def parseLocalPairsAux (acc : List (String × String)) :
    List String → Except Nat (List (String × String))
  | [] => .ok acc
  | pair :: rest =>
    if pair.data.contains '=' then
      let p := partitionEq pair.data
      parseLocalPairsAux (dictSet acc (pyStrip (String.mk p.1)) (pyStrip (String.mk p.2))) rest
    else .error 1

def parseLocalPairs (pairs : List String) : Except Nat (List (String × String)) :=
  parseLocalPairsAux [] pairs

/-- The Domo-mode part of `main` (source lines 312–328): credential and
dataset-ID checks, then the payload build. `tokenO = none` models
`get_domo_token` raising, which is uncaught and terminates the
interpreter with exit status 1. -/
def domoModeBuild (env : String → Option String) (domoO : String → Option (List Json))
    (tokenO : Option String) (skipPud : Bool) : Except Nat (List (String × List Json)) :=
  let clientId := pyStrip ((env "DOMO_CLIENT_ID").getD "")
  let clientSecret := pyStrip ((env "DOMO_CLIENT_SECRET").getD "")
  if clientId = "" || clientSecret = "" then .error 1
  else
    let datasetIds := DATASET_ID_ENV.map fun p => (p.1, pyStrip ((env p.2).getD ""))
    if datasetIds.all (fun p => p.2 = "") then .error 1
    else
      match tokenO with
      | none => .error 1
      | some _ =>
        let skipKeys : List String := if skipPud then ["portfolioUnitDetails"] else []
        let payload := build_payload_from_domo domoO datasetIds skipKeys
        if skipPud && dictHas payload "portfolioUnitDetails" then
          .ok (dictDel payload "portfolioUnitDetails")
        else .ok payload

/-- Payload building in `main` (source lines 302–328): local mode when
`--local` was given with at least one pair, Domo mode otherwise. -/
def buildStep (env : String → Option String) (fileO : String → Option Json)
    (domoO : String → Option (List Json)) (tokenO : Option String) (args : Args) :
    Except Nat (List (String × List Json)) :=
  match args.localArgs with
  | some (p :: ps) =>
    match parseLocalPairs (p :: ps) with
    | .error c => .error c
    | .ok lp => .ok (build_payload_from_local fileO lp)
  | _ => domoModeBuild env domoO tokenO args.skipPud

/-- The `--only` restriction (source lines 334–341): applied only when
the raw value is truthy; a stripped key present in the payload restricts
to that single dataset, a stripped nonempty absent key exits with code 1,
and a stripped-empty key falls through leaving the payload unchanged. -/
def applyOnlyStep (payload : List (String × List Json)) (only : Option String) :
    Except Nat (List (String × List Json)) :=
  let truthy := match only with | none => false | some s => s ≠ ""
  if truthy then
    let onlyKey := pyStrip ((only.getD ""))
    if onlyKey ≠ "" && dictHas payload onlyKey then
      .ok [(onlyKey, (dictLookup payload onlyKey).getD [])]
    else if onlyKey ≠ "" then .error 1
    else .ok payload
  else .ok payload

/-- `main()` from the point the environment is loaded (source lines
296–352): base-URL check, payload build, empty-payload check, `--only`
restriction, dry run, sync, exit status. Returns the exit status and the
requests issued. -/
def mainModel (env : String → Option String) (fileO : String → Option Json)
    (domoO : String → Option (List Json)) (tokenO : Option String)
    (net : Nat → SyncRequest → NetResult) (args : Args) : Nat × List SyncRequest :=
  let baseUrl := pyStrip ((env "API_BASE_URL").getD "")
  if baseUrl = "" && !args.dryRun then (1, [])
  else
    match buildStep env fileO domoO tokenO args with
    | .error c => (c, [])
    | .ok payload =>
      if payload.isEmpty then (1, [])
      else
        match applyOnlyStep payload args.only with
        | .error c => (c, [])
        | .ok payload2 =>
          if args.dryRun then (0, [])
          else
            let pr := post_sync net baseUrl payload2
            ((match pr.1.errors with
              | none => 0
              | some es => if es.isEmpty then 0 else 2), pr.2)

end DomoSync

namespace DomoSync

/-! ### Lemmas about `chunkList`: the chunks partition the rows in order,
each chunk is nonempty and at most `n` long, and there are
`⌈length / n⌉` of them. -/

theorem chunkList_cons (n : Nat) (hn : n ≠ 0) (y : α) (ys : List α) :
    chunkList n (y :: ys) =
      (y :: ys).take n :: chunkList n ((y :: ys).drop n) := by
  rw [chunkList]
  simp [hn]

theorem chunkList_nil (n : Nat) : chunkList n ([] : List α) = [] := by
  rw [chunkList]

theorem chunkList_flatten (n : Nat) (hn : n ≠ 0) :
    ∀ xs : List α, (chunkList n xs).flatten = xs := by
  have H : ∀ (N : Nat) (xs : List α), xs.length ≤ N → (chunkList n xs).flatten = xs := by
    intro N
    induction N with
    | zero =>
      intro xs h
      have : xs = [] := by
        cases xs with
        | nil => rfl
        | cons a as => simp at h
      subst this
      simp [chunkList_nil]
    | succ N ih =>
      intro xs h
      cases xs with
      | nil => simp [chunkList_nil]
      | cons y ys =>
        rw [chunkList_cons n hn]
        rw [List.flatten_cons]
        rw [ih ((y :: ys).drop n) (by simp at h ⊢; omega)]
        exact List.take_append_drop n (y :: ys)
  exact fun xs => H xs.length xs le_rfl

theorem chunkList_length (n : Nat) (hn : n ≠ 0) :
    ∀ xs : List α, (chunkList n xs).length = (xs.length + n - 1) / n := by
  have H : ∀ (N : Nat) (xs : List α), xs.length ≤ N →
      (chunkList n xs).length = (xs.length + n - 1) / n := by
    intro N
    induction N with
    | zero =>
      intro xs h
      have : xs = [] := by
        cases xs with
        | nil => rfl
        | cons a as => simp at h
      subst this
      have h0 : (0 + n - 1) / n = 0 := Nat.div_eq_of_lt (by omega)
      simp only [chunkList_nil, List.length_nil]
      omega
    | succ N ih =>
      intro xs h
      cases xs with
      | nil =>
        have h0 : (0 + n - 1) / n = 0 := Nat.div_eq_of_lt (by omega)
        simp only [chunkList_nil, List.length_nil]
        omega
      | cons y ys =>
        rw [chunkList_cons n hn, List.length_cons,
          ih ((y :: ys).drop n) (by simp at h ⊢; omega)]
        simp only [List.length_drop, List.length_cons]
        rcases le_or_lt (ys.length + 1) n with hle | hlt
        · have h1 : ys.length + 1 - n = 0 := by omega
          rw [h1]
          have h2 : (0 + n - 1) / n = 0 := Nat.div_eq_of_lt (by omega)
          rw [h2]
          have h3 : ys.length + 1 + n - 1 = ys.length + n := by omega
          rw [h3]
          rw [Nat.add_div_right _ (Nat.pos_of_ne_zero hn)]
          rw [Nat.div_eq_of_lt (by omega)]
        · have h1 : ys.length + 1 - n + n - 1 = ys.length := by omega
          rw [h1]
          have h2 : ys.length + 1 + n - 1 = ys.length + n := by omega
          rw [h2, Nat.add_div_right _ (Nat.pos_of_ne_zero hn)]
  exact fun xs => H xs.length xs le_rfl

theorem chunkList_mem (n : Nat) (hn : n ≠ 0) :
    ∀ (xs : List α) (ch : List α), ch ∈ chunkList n xs → ch ≠ [] ∧ ch.length ≤ n := by
  have H : ∀ (N : Nat) (xs : List α) (ch : List α), xs.length ≤ N →
      ch ∈ chunkList n xs → ch ≠ [] ∧ ch.length ≤ n := by
    intro N
    induction N with
    | zero =>
      intro xs ch h hmem
      have : xs = [] := by
        cases xs with
        | nil => rfl
        | cons a as => simp at h
      subst this
      simp [chunkList] at hmem
    | succ N ih =>
      intro xs ch h hmem
      cases xs with
      | nil => simp [chunkList] at hmem
      | cons y ys =>
        rw [chunkList_cons n hn] at hmem
        rcases List.mem_cons.mp hmem with heq | htail
        · subst heq
          constructor
          · simp [hn, Nat.pos_of_ne_zero]
          · simpa using Nat.le_refl _
        · exact ih ((y :: ys).drop n) ch (by simp at h ⊢; omega) htail
  exact fun xs ch => H xs.length xs ch le_rfl

theorem chunkList_ne_nil (n : Nat) (hn : n ≠ 0) (xs : List α) (hxs : xs ≠ []) :
    chunkList n xs ≠ [] := by
  cases xs with
  | nil => exact absurd rfl hxs
  | cons y ys => rw [chunkList_cons n hn]; simp

/-! ### Decimal digits: `str(n)` is injective, its characters are digits,
and parsing it back recovers `n`. Used to show the `_data_hash` pre-image
determines the row count. -/

/-- Numeric value of a digit character. -/
def charVal (c : Char) : Nat := c.toNat - 48

/-- Parse a digit string back to a number. -/
def parseDigits (cs : List Char) : Nat :=
  cs.foldl (fun a c => a * 10 + charVal c) 0

theorem charVal_digitChar : ∀ d : Nat, d < 10 → charVal (digitChar d) = d := by decide

theorem isDigit_digitChar : ∀ d : Nat, d < 10 → (digitChar d).isDigit = true := by decide

theorem natDigits_all_digits :
    ∀ n : Nat, ∀ c ∈ natDigits n, c.isDigit = true := by
  have H : ∀ (N n : Nat), n ≤ N → ∀ c ∈ natDigits n, c.isDigit = true := by
    intro N
    induction N with
    | zero =>
      intro n hn c hc
      interval_cases n
      rw [natDigits] at hc
      simp at hc
      subst hc
      decide
    | succ N ih =>
      intro n hn c hc
      rw [natDigits] at hc
      by_cases h10 : n < 10
      · simp [h10] at hc
        subst hc
        exact isDigit_digitChar n h10
      · simp [h10] at hc
        rcases hc with hmem | hlast
        · exact ih (n / 10) (by omega) c hmem
        · subst hlast
          exact isDigit_digitChar (n % 10) (by omega)
  exact fun n => H n n le_rfl

theorem foldl_natDigits (n : Nat) :
    ∀ acc : Nat, (natDigits n).foldl (fun a c => a * 10 + charVal c) acc =
      acc * 10 ^ (natDigits n).length + n := by
  have H : ∀ (N n : Nat), n ≤ N → ∀ acc : Nat,
      (natDigits n).foldl (fun a c => a * 10 + charVal c) acc =
        acc * 10 ^ (natDigits n).length + n := by
    intro N
    induction N with
    | zero =>
      intro n hn acc
      interval_cases n
      rw [natDigits]
      simp [charVal_digitChar 0 (by omega)]
    | succ N ih =>
      intro n hn acc
      rw [natDigits]
      by_cases h10 : n < 10
      · simp [h10, charVal_digitChar n h10]
      · simp only [h10, dite_false, List.foldl_append, List.length_append, List.foldl_cons,
          List.foldl_nil, List.length_cons, List.length_nil]
        rw [ih (n / 10) (by omega) acc]
        rw [charVal_digitChar (n % 10) (by omega)]
        have hmod : n / 10 * 10 + n % 10 = n := by omega
        calc (acc * 10 ^ (natDigits (n / 10)).length + n / 10) * 10 + n % 10
            = acc * (10 ^ (natDigits (n / 10)).length * 10) + (n / 10 * 10 + n % 10) := by ring
          _ = acc * 10 ^ ((natDigits (n / 10)).length + (0 + 1)) + n := by
              rw [hmod, pow_add, pow_one]
  exact fun acc => H n n le_rfl acc

theorem parseDigits_natDigits (n : Nat) : parseDigits (natDigits n) = n := by
  unfold parseDigits
  rw [foldl_natDigits n 0]
  simp

theorem natDigits_inj {n m : Nat} (h : natDigits n = natDigits m) : n = m := by
  have := parseDigits_natDigits n
  rw [h, parseDigits_natDigits m] at this
  omega

theorem takeWhile_all_stop {p : Char → Bool} :
    ∀ (cs : List Char) (x : Char) (rest : List Char),
      (∀ c ∈ cs, p c = true) → p x = false →
      (cs ++ x :: rest).takeWhile p = cs := by
  intro cs
  induction cs with
  | nil =>
    intro x rest _ hx
    simp [List.takeWhile, hx]
  | cons c cs ih =>
    intro x rest hall hx
    have hc : p c = true := hall c (List.mem_cons_self c cs)
    simp only [List.cons_append, List.takeWhile_cons, hc]
    rw [ih x rest (fun c' hc' => hall c' (List.mem_cons_of_mem c hc')) hx]
    simp

/-! ### The `_data_hash` pre-image determines the row count, and the
digest is bounded (for the truncated-hash pigeonhole argument). -/

theorem dataHashPayloadChars_eq (rows : List Json) :
    dataHashPayloadChars rows = natDigits rows.length ++ '[' ::
      (jsonListDumps ((rows.take 50).map fun r => Json.str (String.mk (jsonDumpsChars r))) ++
        [']']) := by
  unfold dataHashPayloadChars intDigits
  have h1 : ¬ (Int.ofNat rows.length < 0) := Int.not_lt.mpr (Int.ofNat_nonneg _)
  have h2 : (Int.ofNat rows.length).toNat = rows.length := rfl
  simp only [h1, if_false, h2, jsonDumpsChars]
  simp

theorem dataHashPayloadChars_takeWhile (rows : List Json) :
    (dataHashPayloadChars rows).takeWhile Char.isDigit = natDigits rows.length := by
  rw [dataHashPayloadChars_eq]
  exact takeWhile_all_stop _ '[' _ (natDigits_all_digits _) (by decide)

theorem dataHashPayloadChars_len_inj {r1 r2 : List Json}
    (h : r1.length ≠ r2.length) : dataHashPayloadChars r1 ≠ dataHashPayloadChars r2 := by
  intro heq
  apply h
  have hcong := congrArg (List.takeWhile Char.isDigit) heq
  rw [dataHashPayloadChars_takeWhile, dataHashPayloadChars_takeWhile] at hcong
  exact natDigits_inj hcong

/-- All eight digest words are 32-bit. -/
def boundedDigest (d : Digest) : Prop :=
  d.w0 < 4294967296 ∧ d.w1 < 4294967296 ∧ d.w2 < 4294967296 ∧ d.w3 < 4294967296 ∧
  d.w4 < 4294967296 ∧ d.w5 < 4294967296 ∧ d.w6 < 4294967296 ∧ d.w7 < 4294967296

theorem wmask_lt (x : Nat) : wmask x < 4294967296 := Nat.mod_lt _ (by omega)

theorem compressBlock_bounded (h : Digest) (block : List Nat) :
    boundedDigest (compressBlock h block) := by
  unfold compressBlock boundedDigest
  exact ⟨wmask_lt _, wmask_lt _, wmask_lt _, wmask_lt _,
         wmask_lt _, wmask_lt _, wmask_lt _, wmask_lt _⟩

theorem foldl_compress_bounded :
    ∀ (bs : List (List Nat)) (h : Digest), boundedDigest h →
      boundedDigest (bs.foldl compressBlock h) := by
  intro bs
  induction bs with
  | nil => intro h hh; exact hh
  | cons b bs ih =>
    intro h _
    rw [List.foldl_cons]
    exact ih (compressBlock h b) (compressBlock_bounded h b)

theorem initH_bounded : boundedDigest initH := by
  refine ⟨?_, ?_, ?_, ?_, ?_, ?_, ?_, ?_⟩ <;> norm_num [initH]

theorem sha256Digest_bounded (msg : List Nat) : boundedDigest (sha256Digest msg) :=
  foldl_compress_bounded _ initH initH_bounded

theorem digestExt {a b : Digest} (h0 : a.w0 = b.w0) (h1 : a.w1 = b.w1) (h2 : a.w2 = b.w2)
    (h3 : a.w3 = b.w3) (h4 : a.w4 = b.w4) (h5 : a.w5 = b.w5) (h6 : a.w6 = b.w6)
    (h7 : a.w7 = b.w7) : a = b := by
  cases a
  cases b
  simp_all

/-- The digest of the `_data_hash` input of `n + 50` copies of `null`
(all such row lists share the same 50-row sample, so only the count
varies in the hash input). -/
def hashProbe (n : Nat) : Digest :=
  sha256Digest (utf8Bytes (dataHashPayloadChars (List.replicate (n + 50) Json.null)))

/-- `hashProbe` packaged into a finite codomain. -/
def hashProbeFin (n : Nat) :
    Fin 4294967296 × Fin 4294967296 × Fin 4294967296 × Fin 4294967296 ×
    Fin 4294967296 × Fin 4294967296 × Fin 4294967296 × Fin 4294967296 :=
  let hb := sha256Digest_bounded (utf8Bytes (dataHashPayloadChars (List.replicate (n + 50) Json.null)))
  (⟨(hashProbe n).w0, hb.1⟩, ⟨(hashProbe n).w1, hb.2.1⟩, ⟨(hashProbe n).w2, hb.2.2.1⟩,
   ⟨(hashProbe n).w3, hb.2.2.2.1⟩, ⟨(hashProbe n).w4, hb.2.2.2.2.1⟩,
   ⟨(hashProbe n).w5, hb.2.2.2.2.2.1⟩, ⟨(hashProbe n).w6, hb.2.2.2.2.2.2.1⟩,
   ⟨(hashProbe n).w7, hb.2.2.2.2.2.2.2⟩)

/-! ### Trace characterization of the chunk loop. -/

/-- The request sequence a chunked upload issues when nothing fails:
one request per chunk, in order, with the position-dependent headers. -/
def chunkReqs (url key : String) (numChunks totalRows : Nat) (fullHash : String) :
    Nat → List (List Json) → List SyncRequest
  | _, [] => []
  | c, ch :: rest =>
    ⟨url, key, ch, mkChunkHeaders numChunks totalRows fullHash c⟩ ::
      chunkReqs url key numChunks totalRows fullHash (c + 1) rest

theorem chunkReqs_length (url key : String) (nc tot : Nat) (hs : String) :
    ∀ (c : Nat) (chs : List (List Json)),
      (chunkReqs url key nc tot hs c chs).length = chs.length := by
  intro c chs
  induction chs generalizing c with
  | nil => rfl
  | cons ch rest ih => simp [chunkReqs, ih]

theorem chunkReqs_map_body (url key : String) (nc tot : Nat) (hs : String) :
    ∀ (c : Nat) (chs : List (List Json)),
      (chunkReqs url key nc tot hs c chs).map SyncRequest.body = chs := by
  intro c chs
  induction chs generalizing c with
  | nil => rfl
  | cons ch rest ih => simp [chunkReqs, ih]

theorem chunkReqs_getElem (url key : String) (nc tot : Nat) (hs : String) :
    ∀ (chs : List (List Json)) (c i : Nat),
      (chunkReqs url key nc tot hs c chs)[i]? =
        (chs[i]?).map (fun ch => ⟨url, key, ch, mkChunkHeaders nc tot hs (c + i)⟩) := by
  intro chs
  induction chs with
  | nil => intro c i; simp [chunkReqs]
  | cons ch rest ih =>
    intro c i
    cases i with
    | zero => simp [chunkReqs]
    | succ j =>
      simp only [chunkReqs, List.getElem?_cons_succ, ih (c + 1) j]
      have : c + 1 + j = c + (j + 1) := by omega
      rw [this]

theorem chunkReqs_key_mem (url key : String) (nc tot : Nat) (hs : String) :
    ∀ (c : Nat) (chs : List (List Json)) (r : SyncRequest),
      r ∈ chunkReqs url key nc tot hs c chs → r.key = key := by
  intro c chs
  induction chs generalizing c with
  | nil => intro r hr; simp [chunkReqs] at hr
  | cons ch rest ih =>
    intro r hr
    rcases List.mem_cons.mp hr with h | h
    · subst h; rfl
    · exact ih (c + 1) r h

theorem lookup_mkChunkHeaders_total (nc tot : Nat) (hs : String) (c : Nat) :
    dictLookup (mkChunkHeaders nc tot hs c) "X-Leasing-Sync-Total-Rows" =
      if c = nc - 1 then some (natDumps tot) else none := by
  by_cases hc : c = nc - 1 <;> simp [mkChunkHeaders, dictLookup, hc]

theorem lookup_mkChunkHeaders_hash (nc tot : Nat) (hs : String) (c : Nat) :
    dictLookup (mkChunkHeaders nc tot hs c) "X-Leasing-Sync-Data-Hash" =
      if c = nc - 1 then some hs else none := by
  by_cases hc : c = nc - 1 <;> simp [mkChunkHeaders, dictLookup, hc]

theorem collect_response_errors (key : String) (status : Nat) (body : Option Json)
    (text : String) (st : SyncState) :
    ∃ d, ((_collect_response key status body text st).1).errors = st.errors ++ d := by
  cases body with
  | none => exact ⟨_, rfl⟩
  | some v => exact ⟨_, rfl⟩

/-- If no request in the window fails, the chunk loop issues exactly one
request per remaining chunk and advances the counter past them. -/
theorem sendChunks_all_ok (net : Nat → SyncRequest → NetResult) (url key : String)
    (nc tot : Nat) (hs : String) :
    ∀ (chs : List (List Json)) (c : Nat) (st : SyncState) (cnt : Nat),
      (∀ i r, cnt ≤ i → i < cnt + chs.length → breaks (net i r) = false) →
      (sendChunks net url key nc tot hs chs c st cnt).2.2 = chunkReqs url key nc tot hs c chs ∧
      (sendChunks net url key nc tot hs chs c st cnt).2.1 = cnt + chs.length := by
  intro chs
  induction chs with
  | nil => intro c st cnt _; exact ⟨rfl, by simp [sendChunks]⟩
  | cons chunk rest ih =>
    intro c st cnt H
    have hb : breaks (net cnt ⟨url, key, chunk, mkChunkHeaders nc tot hs c⟩) = false :=
      H cnt _ le_rfl (by simp)
    cases hnet : net cnt ⟨url, key, chunk, mkChunkHeaders nc tot hs c⟩ with
    | exn msg => rw [hnet] at hb; simp [breaks] at hb
    | resp status body text =>
      rw [hnet] at hb
      have H' : ∀ i r, cnt + 1 ≤ i → i < cnt + 1 + rest.length → breaks (net i r) = false := by
        intro i r h1 h2
        exact H i r (by omega) (by simp; omega)
      cases body with
      | none =>
        have hred : sendChunks net url key nc tot hs (chunk :: rest) c st cnt =
            (let r := sendChunks net url key nc tot hs rest (c + 1)
              (addErr st key ("Response not JSON (status " ++ natDumps status ++ "): " ++
                String.mk (text.data.take 200))) (cnt + 1)
             (r.1, r.2.1, ⟨url, key, chunk, mkChunkHeaders nc tot hs c⟩ :: r.2.2)) := by
          simp only [sendChunks, hnet, _collect_response]
        rw [hred]
        obtain ⟨ih1, ih2⟩ := ih (c + 1) (addErr st key ("Response not JSON (status " ++ natDumps status ++ "): " ++
          String.mk (text.data.take 200))) (cnt + 1) H'
        refine ⟨?_, ?_⟩
        · simp only [ih1, chunkReqs]
        · simp only [ih2, List.length_cons]
          omega
      | some v =>
        simp only [breaks] at hb
        cases hr : (collectCore v).raised with
        | some e => rw [hr] at hb; simp at hb
        | none =>
          have hred : sendChunks net url key nc tot hs (chunk :: rest) c st cnt =
              (let r := sendChunks net url key nc tot hs rest (c + 1)
                ⟨st.synced ++ (collectCore v).synced, st.skipped ++ (collectCore v).skipped,
                 st.errors ++ (collectCore v).errors⟩ (cnt + 1)
               (r.1, r.2.1, ⟨url, key, chunk, mkChunkHeaders nc tot hs c⟩ :: r.2.2)) := by
            simp only [sendChunks, hnet, _collect_response, hr]
          rw [hred]
          obtain ⟨ih1, ih2⟩ := ih (c + 1) ⟨st.synced ++ (collectCore v).synced, st.skipped ++ (collectCore v).skipped,
          st.errors ++ (collectCore v).errors⟩ (cnt + 1) H'
          refine ⟨?_, ?_⟩
          · simp only [ih1, chunkReqs]
          · simp only [ih2, List.length_cons]
            omega

/-- If the first `k` chunk requests do not fail and the network raises at
the `k`-th slot, the chunk loop issues exactly the requests for chunks
`0..k`, records one error for the dataset, and stops. -/
theorem sendChunks_break_at (net : Nat → SyncRequest → NetResult) (url key : String)
    (nc tot : Nat) (hs msg : String) :
    ∀ (k : Nat) (chs : List (List Json)) (c : Nat) (st : SyncState) (cnt : Nat),
      k < chs.length →
      (∀ i r, cnt ≤ i → i < cnt + k → breaks (net i r) = false) →
      (∀ r, net (cnt + k) r = .exn msg) →
      (sendChunks net url key nc tot hs chs c st cnt).2.2 =
        chunkReqs url key nc tot hs c (chs.take (k + 1)) ∧
      ∃ es, (sendChunks net url key nc tot hs chs c st cnt).1.errors =
        st.errors ++ es ++ [mkErr key msg] := by
  intro k
  induction k with
  | zero =>
    intro chs c st cnt hk _ Hexn
    cases chs with
    | nil => simp at hk
    | cons chunk rest =>
      have hnet : net cnt ⟨url, key, chunk, mkChunkHeaders nc tot hs c⟩ = .exn msg := by
        have := Hexn ⟨url, key, chunk, mkChunkHeaders nc tot hs c⟩
        simpa using this
      have hred : sendChunks net url key nc tot hs (chunk :: rest) c st cnt =
          (addErr st key msg, cnt + 1, [⟨url, key, chunk, mkChunkHeaders nc tot hs c⟩]) := by
        simp only [sendChunks, hnet]
      rw [hred]
      refine ⟨by simp [chunkReqs], ⟨[], by simp [addErr]⟩⟩
  | succ k ihk =>
    intro chs c st cnt hk H Hexn
    cases chs with
    | nil => simp at hk
    | cons chunk rest =>
      have hb : breaks (net cnt ⟨url, key, chunk, mkChunkHeaders nc tot hs c⟩) = false :=
        H cnt _ le_rfl (by omega)
      have H' : ∀ i r, cnt + 1 ≤ i → i < cnt + 1 + k → breaks (net i r) = false := by
        intro i r h1 h2
        exact H i r (by omega) (by omega)
      have Hexn' : ∀ r, net (cnt + 1 + k) r = .exn msg := by
        intro r
        have := Hexn r
        have heq : cnt + 1 + k = cnt + (k + 1) := by omega
        rw [heq]
        exact this
      have hk' : k < rest.length := by simp at hk; omega
      cases hnet : net cnt ⟨url, key, chunk, mkChunkHeaders nc tot hs c⟩ with
      | exn m => rw [hnet] at hb; simp [breaks] at hb
      | resp status body text =>
        rw [hnet] at hb
        cases body with
        | none =>
          have hred : sendChunks net url key nc tot hs (chunk :: rest) c st cnt =
              (let r := sendChunks net url key nc tot hs rest (c + 1)
                (addErr st key ("Response not JSON (status " ++ natDumps status ++ "): " ++
                  String.mk (text.data.take 200))) (cnt + 1)
               (r.1, r.2.1, ⟨url, key, chunk, mkChunkHeaders nc tot hs c⟩ :: r.2.2)) := by
            simp only [sendChunks, hnet, _collect_response]
          rw [hred]
          obtain ⟨ih1, es, ih2⟩ := ihk rest (c + 1) (addErr st key ("Response not JSON (status " ++ natDumps status ++ "): " ++
          String.mk (text.data.take 200))) (cnt + 1) hk' H' Hexn'
          refine ⟨?_, ?_⟩
          · simp only [ih1, List.take_succ_cons, chunkReqs]
          · refine ⟨[mkErr key ("Response not JSON (status " ++ natDumps status ++ "): " ++
              String.mk (text.data.take 200))] ++ es, ?_⟩
            rw [ih2]
            simp [addErr, List.append_assoc]
        | some v =>
          simp only [breaks] at hb
          cases hr : (collectCore v).raised with
          | some e => rw [hr] at hb; simp at hb
          | none =>
            have hred : sendChunks net url key nc tot hs (chunk :: rest) c st cnt =
                (let r := sendChunks net url key nc tot hs rest (c + 1)
                  ⟨st.synced ++ (collectCore v).synced, st.skipped ++ (collectCore v).skipped,
                   st.errors ++ (collectCore v).errors⟩ (cnt + 1)
                 (r.1, r.2.1, ⟨url, key, chunk, mkChunkHeaders nc tot hs c⟩ :: r.2.2)) := by
              simp only [sendChunks, hnet, _collect_response, hr]
            rw [hred]
            obtain ⟨ih1, es, ih2⟩ := ihk rest (c + 1) ⟨st.synced ++ (collectCore v).synced, st.skipped ++ (collectCore v).skipped,
          st.errors ++ (collectCore v).errors⟩ (cnt + 1) hk' H' Hexn'
            refine ⟨?_, ?_⟩
            · simp only [ih1, List.take_succ_cons, chunkReqs]
            · refine ⟨(collectCore v).errors ++ es, ?_⟩
              rw [ih2]
              simp [List.append_assoc]

theorem sendChunks_key_mem (net : Nat → SyncRequest → NetResult) (url key : String)
    (nc tot : Nat) (hs : String) :
    ∀ (chs : List (List Json)) (c : Nat) (st : SyncState) (cnt : Nat) (r : SyncRequest),
      r ∈ (sendChunks net url key nc tot hs chs c st cnt).2.2 → r.key = key := by
  intro chs
  induction chs with
  | nil => intro c st cnt r hr; simp [sendChunks] at hr
  | cons chunk rest ih =>
    intro c st cnt r hr
    cases hnet : net cnt ⟨url, key, chunk, mkChunkHeaders nc tot hs c⟩ with
    | exn msg =>
      have hred : sendChunks net url key nc tot hs (chunk :: rest) c st cnt =
          (addErr st key msg, cnt + 1,
            [⟨url, key, chunk, mkChunkHeaders nc tot hs c⟩]) := by
        simp only [sendChunks, hnet]
      rw [hred] at hr
      simp at hr
      subst hr
      rfl
    | resp status body text =>
      rcases hcr : _collect_response key status body text st with ⟨st1, raised⟩
      cases raised with
      | none =>
        have hred : sendChunks net url key nc tot hs (chunk :: rest) c st cnt =
            (let r := sendChunks net url key nc tot hs rest (c + 1) st1 (cnt + 1)
             (r.1, r.2.1, ⟨url, key, chunk, mkChunkHeaders nc tot hs c⟩ :: r.2.2)) := by
          simp only [sendChunks, hnet, hcr]
        rw [hred] at hr
        simp at hr
        rcases hr with h | h
        · subst h; rfl
        · exact ih (c + 1) st1 (cnt + 1) r h
      | some e =>
        have hred : sendChunks net url key nc tot hs (chunk :: rest) c st cnt =
            (addErr st1 key e, cnt + 1,
              [⟨url, key, chunk, mkChunkHeaders nc tot hs c⟩]) := by
          simp only [sendChunks, hnet, hcr]
        rw [hred] at hr
        simp at hr
        subst hr
        rfl

theorem sendChunks_ne_nil (net : Nat → SyncRequest → NetResult) (url key : String)
    (nc tot : Nat) (hs : String) (chunk : List Json) (rest : List (List Json))
    (c : Nat) (st : SyncState) (cnt : Nat) :
    (sendChunks net url key nc tot hs (chunk :: rest) c st cnt).2.2 ≠ [] := by
  cases hnet : net cnt ⟨url, key, chunk, mkChunkHeaders nc tot hs c⟩ with
  | exn msg => simp [sendChunks, hnet]
  | resp status body text =>
    rcases hcr : _collect_response key status body text st with ⟨st1, raised⟩
    cases raised with
    | none => simp [sendChunks, hnet, hcr]
    | some e => simp [sendChunks, hnet, hcr]

/-! ### Per-dataset and whole-run trace lemmas. -/

theorem processDataset_small (net : Nat → SyncRequest → NetResult) (url key : String)
    (rows : List Json) (st : SyncState) (cnt : Nat) (h : rows.length ≤ CHUNK_ROWS) :
    (processDataset net url key rows st cnt).2.2 =
      [⟨url, key, rows, [("Content-Type", "application/json")]⟩] ∧
    (processDataset net url key rows st cnt).2.1 = cnt + 1 := by
  cases hnet : net cnt ⟨url, key, rows, [("Content-Type", "application/json")]⟩ with
  | exn msg =>
    have hred : processDataset net url key rows st cnt =
        (addErr st key msg, cnt + 1,
          [⟨url, key, rows, [("Content-Type", "application/json")]⟩]) := by
      simp only [processDataset, if_pos h, hnet]
    rw [hred]
    exact ⟨rfl, rfl⟩
  | resp status body text =>
    rcases hcr : _collect_response key status body text st with ⟨st1, raised⟩
    cases raised with
    | none =>
      have hred : processDataset net url key rows st cnt =
          (st1, cnt + 1, [⟨url, key, rows, [("Content-Type", "application/json")]⟩]) := by
        simp only [processDataset, if_pos h, hnet, hcr]
      rw [hred]
      exact ⟨rfl, rfl⟩
    | some e =>
      have hred : processDataset net url key rows st cnt =
          (addErr st1 key e, cnt + 1,
            [⟨url, key, rows, [("Content-Type", "application/json")]⟩]) := by
        simp only [processDataset, if_pos h, hnet, hcr]
      rw [hred]
      exact ⟨rfl, rfl⟩

theorem processDataset_chunked (net : Nat → SyncRequest → NetResult) (url key : String)
    (rows : List Json) (st : SyncState) (cnt : Nat) (h : ¬ rows.length ≤ CHUNK_ROWS) :
    processDataset net url key rows st cnt =
      sendChunks net url key (chunkList CHUNK_ROWS rows).length rows.length (dataHash rows)
        (chunkList CHUNK_ROWS rows) 0 st cnt := by
  simp only [processDataset, if_neg h]

theorem processDataset_key_mem (net : Nat → SyncRequest → NetResult) (url key : String)
    (rows : List Json) (st : SyncState) (cnt : Nat) :
    ∀ r ∈ (processDataset net url key rows st cnt).2.2, r.key = key := by
  intro r hr
  by_cases h : rows.length ≤ CHUNK_ROWS
  · rw [(processDataset_small net url key rows st cnt h).1] at hr
    simp at hr
    subst hr
    rfl
  · rw [processDataset_chunked net url key rows st cnt h] at hr
    exact sendChunks_key_mem net url key _ _ _ _ 0 st cnt r hr

theorem processDataset_ne_nil (net : Nat → SyncRequest → NetResult) (url key : String)
    (rows : List Json) (st : SyncState) (cnt : Nat) :
    (processDataset net url key rows st cnt).2.2 ≠ [] := by
  by_cases h : rows.length ≤ CHUNK_ROWS
  · rw [(processDataset_small net url key rows st cnt h).1]
    simp
  · rw [processDataset_chunked net url key rows st cnt h]
    have hne : rows ≠ [] := by
      intro hnil
      rw [hnil] at h
      simp [CHUNK_ROWS] at h
    cases hc : chunkList CHUNK_ROWS rows with
    | nil => exact absurd hc (chunkList_ne_nil CHUNK_ROWS (by simp [CHUNK_ROWS]) rows hne)
    | cons ch rest =>
      exact sendChunks_ne_nil net url key _ _ _ ch rest 0 st cnt

theorem syncLoop_cons (net : Nat → SyncRequest → NetResult) (url key : String)
    (rows : List Json) (rest : List (String × List Json)) (st : SyncState) (cnt : Nat) :
    (syncLoop net url ((key, rows) :: rest) st cnt).2.2 =
      (processDataset net url key rows st cnt).2.2 ++
      (syncLoop net url rest (processDataset net url key rows st cnt).1
        (processDataset net url key rows st cnt).2.1).2.2 := rfl

theorem syncLoop_attempts (net : Nat → SyncRequest → NetResult) (url : String) :
    ∀ (payload : List (String × List Json)) (st : SyncState) (cnt : Nat)
      (k : String) (rows : List Json), (k, rows) ∈ payload →
      ∃ r ∈ (syncLoop net url payload st cnt).2.2, r.key = k := by
  intro payload
  induction payload with
  | nil => intro st cnt k rows hmem; simp at hmem
  | cons p rest ih =>
    intro st cnt k rows hmem
    rcases p with ⟨k0, rows0⟩
    rw [syncLoop_cons]
    rcases List.mem_cons.mp hmem with heq | htail
    · obtain ⟨r, hrmem⟩ :=
        List.exists_mem_of_ne_nil _ (processDataset_ne_nil net url k0 rows0 st cnt)
      refine ⟨r, List.mem_append_left _ hrmem, ?_⟩
      rw [processDataset_key_mem net url k0 rows0 st cnt r hrmem]
      cases heq
      rfl
    · obtain ⟨r, hrmem, hrkey⟩ := ih _ _ k rows htail
      exact ⟨r, List.mem_append_right _ hrmem, hrkey⟩

theorem syncLoop_key_source (net : Nat → SyncRequest → NetResult) (url : String) :
    ∀ (payload : List (String × List Json)) (st : SyncState) (cnt : Nat)
      (r : SyncRequest), r ∈ (syncLoop net url payload st cnt).2.2 →
      ∃ p ∈ payload, r.key = p.1 := by
  intro payload
  induction payload with
  | nil => intro st cnt r hr; simp [syncLoop] at hr
  | cons p rest ih =>
    intro st cnt r hr
    rcases p with ⟨k0, rows0⟩
    rw [syncLoop_cons] at hr
    rcases List.mem_append.mp hr with h | h
    · exact ⟨(k0, rows0), List.mem_cons_self _ _,
        processDataset_key_mem net url k0 rows0 st cnt r h⟩
    · obtain ⟨q, hq, hk⟩ := ih _ _ r h
      exact ⟨q, List.mem_cons_of_mem _ hq, hk⟩

theorem syncLoop_filter (net : Nat → SyncRequest → NetResult) (url : String) :
    ∀ (payload : List (String × List Json)) (st : SyncState) (cnt : Nat)
      (k : String) (rows : List Json),
      (payload.map Prod.fst).Nodup → (k, rows) ∈ payload →
      ∃ st2 cnt2, (syncLoop net url payload st cnt).2.2.filter (fun r => r.key == k) =
        (processDataset net url k rows st2 cnt2).2.2 := by
  intro payload
  induction payload with
  | nil => intro st cnt k rows _ hmem; simp at hmem
  | cons p rest ih =>
    intro st cnt k rows hnd hmem
    rcases p with ⟨k0, rows0⟩
    rw [syncLoop_cons, List.filter_append]
    have hnd0 : k0 ∉ rest.map Prod.fst := by
      simp only [List.map_cons, List.nodup_cons] at hnd
      exact hnd.1
    have hndrest : (rest.map Prod.fst).Nodup := by
      simp only [List.map_cons, List.nodup_cons] at hnd
      exact hnd.2
    rcases List.mem_cons.mp hmem with heq | htail
    · cases heq
      have h1 : (processDataset net url k rows st cnt).2.2.filter
          (fun r => r.key == k) = (processDataset net url k rows st cnt).2.2 :=
        List.filter_eq_self.mpr (fun r hr => by
          simp [processDataset_key_mem net url k rows st cnt r hr])
      have h2 : (syncLoop net url rest (processDataset net url k rows st cnt).1
          (processDataset net url k rows st cnt).2.1).2.2.filter
          (fun r => r.key == k) = [] := by
        rw [List.filter_eq_nil_iff]
        intro r hr
        obtain ⟨q, hq, hkey⟩ := syncLoop_key_source net url rest _ _ r hr
        have : q.1 ∈ rest.map Prod.fst := List.mem_map_of_mem Prod.fst hq
        simp only [hkey]
        simp only [beq_iff_eq]
        intro hkk
        rw [hkk] at this
        exact hnd0 this
      rw [h1, h2, List.append_nil]
      exact ⟨st, cnt, rfl⟩
    · have hkne : k ≠ k0 := by
        intro hkk
        apply hnd0
        rw [← hkk]
        exact List.mem_map_of_mem Prod.fst htail
      have h1 : (processDataset net url k0 rows0 st cnt).2.2.filter
          (fun r => r.key == k) = [] := by
        rw [List.filter_eq_nil_iff]
        intro r hr
        rw [processDataset_key_mem net url k0 rows0 st cnt r hr]
        simp only [beq_iff_eq]
        exact fun h => hkne h.symm
      rw [h1, List.nil_append]
      exact ih _ _ k rows hndrest htail

/-! ### Association-list lemmas and the dotenv / local-payload / driver
facts behind claims C6–C9. -/

theorem dictLookup_append_left {α : Type} {d1 d2 : List (String × α)} {k : String} {v : α}
    (h : dictLookup d1 k = some v) : dictLookup (d1 ++ d2) k = some v := by
  induction d1 with
  | nil => simp [dictLookup] at h
  | cons p rest ih =>
    rcases p with ⟨k', v'⟩
    by_cases hk : k' = k
    · simp [dictLookup, hk] at h ⊢
      exact h
    · simp only [dictLookup, hk, if_false, List.cons_append] at h ⊢
      exact ih h

theorem dictLookup_dictSet_ne {α : Type} {d : List (String × α)} {k k' : String} {v : α}
    (h : k ≠ k') : dictLookup (dictSet d k v) k' = dictLookup d k' := by
  induction d with
  | nil => simp [dictLookup, dictSet, h]
  | cons p rest ih =>
    rcases p with ⟨k0, v0⟩
    by_cases hk : k0 = k
    · subst hk
      simp [dictSet, dictLookup, h]
    · simp only [dictSet, hk, if_false]
      by_cases hk' : k0 = k'
      · simp [dictLookup, hk']
      · simp [dictLookup, hk', ih]

theorem dictHas_isSome {α : Type} (d : List (String × α)) (k : String) :
    dictHas d k = (dictLookup d k).isSome := by
  induction d with
  | nil => rfl
  | cons p rest ih =>
    rcases p with ⟨k0, v0⟩
    by_cases hk : k0 = k
    · simp [dictHas, dictLookup, hk]
    · simp [dictHas, dictLookup, hk, ih]

theorem dotenvLine_cases (env : List (String × String)) (line : String) :
    dotenvLine env line = env ∨
    ∃ key value, dictLookup env key = none ∧
      dotenvLine env line = dictSet env key value := by
  simp only [dotenvLine]
  split
  · exact Or.inl rfl
  split
  · exact Or.inl rfl
  split
  · exact Or.inl rfl
  split
  · rename_i hcond
    refine Or.inr ⟨_, _, ?_, rfl⟩
    rcases Bool.and_eq_true_iff.mp hcond with ⟨_, h2⟩
    cases hlk : dictLookup env (pyStrip (String.mk (partitionEq (pyStrip line).data).1)) with
    | none => rfl
    | some w => rw [hlk] at h2; simp at h2
  · exact Or.inl rfl

theorem dotenvLine_preserves {env : List (String × String)} {line : String}
    {k v : String} (h : dictLookup env k = some v) :
    dictLookup (dotenvLine env line) k = some v := by
  rcases dotenvLine_cases env line with hc | ⟨key, value, hkey, hc⟩
  · rw [hc]
    exact h
  · rw [hc]
    have hne : key ≠ k := by
      intro heq
      rw [heq, h] at hkey
      cases hkey
    rw [dictLookup_dictSet_ne hne]
    exact h

theorem load_dotenv_preserves {env : List (String × String)} {lines : List String}
    {k v : String} (h : dictLookup env k = some v) :
    dictLookup (load_dotenv env lines) k = some v := by
  unfold load_dotenv
  induction lines generalizing env with
  | nil => exact h
  | cons line rest ih => exact ih (dotenvLine_preserves h)

/-- C9: loading the `.env` file never overwrites an environment variable
that is already set: every key present before keeps its exact value, and
a key whose binding changed was necessarily absent before (only absent
keys are added from the file). -/
theorem c9_dotenv_no_overwrite (env : List (String × String)) (lines : List String)
    (k : String) :
    (∀ v, dictLookup env k = some v → dictLookup (load_dotenv env lines) k = some v) ∧
    (dictLookup (load_dotenv env lines) k ≠ dictLookup env k →
      dictLookup env k = none) := by
  constructor
  · intro v h
    exact load_dotenv_preserves h
  · intro hne
    cases he : dictLookup env k with
    | none => rfl
    | some v =>
      exfalso
      apply hne
      rw [load_dotenv_preserves he, he]

/-- Witness for C9 at a concrete environment and file. -/
theorem c9_dotenv_no_overwrite_witness :
    dictLookup [("API_BASE_URL", "http://a")] "API_BASE_URL" = some "http://a" ∧
    dictLookup (load_dotenv [("API_BASE_URL", "http://a")] ["API_BASE_URL=http://b", "NEW=1"])
      "API_BASE_URL" = some "http://a" :=
  ⟨rfl, (c9_dotenv_no_overwrite [("API_BASE_URL", "http://a")]
    ["API_BASE_URL=http://b", "NEW=1"] "API_BASE_URL").1 "http://a" rfl⟩

theorem localStep_skip {fileO : String → Option Json} {acc : List (String × List Json)}
    {k p : String} (h : k ∉ SYNC_KEYS ∨ load_local_json fileO p = none) :
    localStep fileO acc (k, p) = acc := by
  unfold localStep
  rcases h with h | h
  · simp [h]
  · by_cases hk : k ∈ SYNC_KEYS
    · simp [hk, h]
    · simp [hk]

theorem foldl_localStep_lookup {fileO : String → Option Json} {k : String}
    (hk : k ∉ SYNC_KEYS) :
    ∀ (paths : List (String × String)) (acc : List (String × List Json)),
      dictLookup acc k = none →
      dictLookup (paths.foldl (localStep fileO) acc) k = none := by
  intro paths
  induction paths with
  | nil => intro acc h; exact h
  | cons kp rest ih =>
    intro acc h
    rw [List.foldl_cons]
    apply ih
    unfold localStep
    by_cases hmem : kp.1 ∈ SYNC_KEYS
    · cases hl : load_local_json fileO kp.2 with
      | none => simp [hmem, hl, h]
      | some rows =>
        simp only [hmem, if_true, hl]
        have hne : kp.1 ≠ k := fun heq => hk (heq ▸ hmem)
        rw [dictLookup_dictSet_ne hne]
        exact h
    · simp [hmem, h]

/-- C8: local mode — a JSON array file is the row sequence directly, a
bare JSON object becomes a one-row sequence, a key outside `SYNC_KEYS`
never reaches the payload, and a pair whose load fails (or whose key is
unknown) is skipped without disturbing the processing of the other
pairs. -/
theorem c8_local_payload (fileO : String → Option Json) :
    (∀ path xs, fileO path = some (.arr xs) → load_local_json fileO path = some xs) ∧
    (∀ path fs, fileO path = some (.obj fs) →
      load_local_json fileO path = some [.obj fs]) ∧
    (∀ (paths : List (String × String)) (k : String), k ∉ SYNC_KEYS →
      dictLookup (build_payload_from_local fileO paths) k = none) ∧
    (∀ (pre post : List (String × String)) (k p : String),
      k ∉ SYNC_KEYS ∨ load_local_json fileO p = none →
      build_payload_from_local fileO (pre ++ (k, p) :: post) =
        build_payload_from_local fileO (pre ++ post)) := by
  refine ⟨?_, ?_, ?_, ?_⟩
  · intro path xs h
    simp [load_local_json, h]
  · intro path fs h
    simp [load_local_json, h]
  · intro paths k hk
    exact foldl_localStep_lookup hk paths [] rfl
  · intro pre post k p h
    unfold build_payload_from_local
    rw [List.foldl_append, List.foldl_append, List.foldl_cons, localStep_skip h]

/-- Witness for C8 at a concrete oracle and key set. -/
theorem c8_local_payload_witness :
    (fun path => if path = "a.json" then some (Json.arr [Json.obj []])
      else if path = "b.json" then some (Json.obj [("x", Json.num 1)]) else none) "a.json"
      = some (Json.arr [Json.obj []]) ∧
    load_local_json (fun path => if path = "a.json" then some (Json.arr [Json.obj []])
      else if path = "b.json" then some (Json.obj [("x", Json.num 1)]) else none) "a.json"
      = some [Json.obj []] ∧
    ("bogus" ∉ SYNC_KEYS) ∧
    dictLookup (build_payload_from_local
      (fun path => if path = "a.json" then some (Json.arr [Json.obj []])
        else if path = "b.json" then some (Json.obj [("x", Json.num 1)]) else none)
      [("leasing", "a.json"), ("bogus", "c.json")]) "bogus" = none ∧
    build_payload_from_local
      (fun path => if path = "a.json" then some (Json.arr [Json.obj []])
        else if path = "b.json" then some (Json.obj [("x", Json.num 1)]) else none)
      ([("leasing", "a.json")] ++ ("pricing", "missing.json") :: [("units", "b.json")]) =
    build_payload_from_local
      (fun path => if path = "a.json" then some (Json.arr [Json.obj []])
        else if path = "b.json" then some (Json.obj [("x", Json.num 1)]) else none)
      ([("leasing", "a.json")] ++ [("units", "b.json")]) := by
  refine ⟨rfl, ?_, by decide, ?_, ?_⟩
  · exact (c8_local_payload _).1 "a.json" [Json.obj []] rfl
  · exact (c8_local_payload _).2.2.1 [("leasing", "a.json"), ("bogus", "c.json")] "bogus"
      (by decide)
  · exact (c8_local_payload _).2.2.2 [("leasing", "a.json")] [("units", "b.json")]
      "pricing" "missing.json" (Or.inr rfl)

/-! ### Claims C6 and C7: the `--only` restriction and the empty-payload
exit. -/

/-- C6 counterexample: with `--only " "` (a whitespace-only value), the
requested key is absent from the built payload, yet the restriction
neither produces a singleton payload nor exits with status 1 — it leaves
the payload unchanged, because the stripped key is empty and both guarded
branches are skipped (source lines 334–341). This falsifies the claim
that every requested `--only` key either restricts the payload to that
key or terminates the run with exit status 1. -/
theorem c6_counterexample_blank_only :
    applyOnlyStep [("leasing", [Json.null])] (some " ") = .ok [("leasing", [Json.null])] ∧
    pyStrip " " = "" ∧
    dictHas [("leasing", [Json.null])] " " = false ∧
    dictHas [("leasing", [Json.null])] (pyStrip " ") = false := by
  exact ⟨rfl, rfl, rfl, rfl⟩

/-- C6 (amended): for a `--only` value whose stripped key is nonempty,
the restriction yields exactly the singleton of the stripped key with its
rows unchanged when that key is in the built payload, and the run
terminates with exit status 1 (no requests issued) when it is absent;
a `--only` value that is empty or whitespace-only leaves the payload
unrestricted. -/
theorem c6_only_amended (payload : List (String × List Json)) (s : String) :
    (∀ rows, pyStrip s ≠ "" → dictLookup payload (pyStrip s) = some rows →
      applyOnlyStep payload (some s) = .ok [(pyStrip s, rows)]) ∧
    (pyStrip s ≠ "" → dictHas payload (pyStrip s) = false →
      applyOnlyStep payload (some s) = .error 1) ∧
    (pyStrip s = "" → applyOnlyStep payload (some s) = .ok payload) ∧
    (applyOnlyStep payload none = .ok payload) ∧
    (∀ env fileO domoO tokenO net args,
      args.only = some s → pyStrip s ≠ "" →
      buildStep env fileO domoO tokenO args = .ok payload → payload ≠ [] →
      dictHas payload (pyStrip s) = false →
      mainModel env fileO domoO tokenO net args = (1, [])) := by
  have hs_of : pyStrip s ≠ "" → s ≠ "" := by
    intro h hs
    rw [hs] at h
    exact h rfl
  refine ⟨?_, ?_, ?_, ?_, ?_⟩
  · intro rows hks hlk
    have hs : s ≠ "" := hs_of hks
    have hhas : dictHas payload (pyStrip s) = true := by
      rw [dictHas_isSome, hlk]
      rfl
    simp [applyOnlyStep, hs, hks, hhas, hlk]
  · intro hks hhas
    have hs : s ≠ "" := hs_of hks
    simp [applyOnlyStep, hs, hks, hhas]
  · intro hks
    by_cases hs : s = ""
    · simp [applyOnlyStep, hs]
    · simp [applyOnlyStep, hs, hks]
  · rfl
  · intro env fileO domoO tokenO net args honly hks hbuild hne hhas
    have hs : s ≠ "" := hs_of hks
    have happ : applyOnlyStep payload args.only = .error 1 := by
      rw [honly]
      simp [applyOnlyStep, hs, hks, hhas]
    have hemp : payload.isEmpty = false := by
      cases payload with
      | nil => exact absurd rfl hne
      | cons a l => rfl
    unfold mainModel
    rw [hbuild]
    split
    next x c heqq => exact absurd heqq (by simp)
    next x p2 heqq =>
      have hp2 : p2 = payload := by
        injection heqq with hinj
        exact hinj.symm
      subst hp2
      split
      · simp_all
      · simp [happ]

/-- Witness for C6 (amended) at a concrete payload and `--only` values. -/
theorem c6_only_amended_witness :
    applyOnlyStep [("leasing", [Json.null]), ("pricing", [])] (some " pricing ") =
      .ok [("pricing", [])] ∧
    applyOnlyStep [("leasing", [Json.null])] (some "bogus") = .error 1 := by
  constructor
  · exact (c6_only_amended [("leasing", [Json.null]), ("pricing", [])] " pricing ").1
      [] (by decide) rfl
  · exact (c6_only_amended [("leasing", [Json.null])] "bogus").2.1 (by decide) rfl

/-- C7: an empty built payload (no dataset keys) makes the program exit
with status 1, and no request is ever issued to the sync endpoint
(`post_sync` is never invoked). -/
theorem c7_empty_payload (env : String → Option String) (fileO : String → Option Json)
    (domoO : String → Option (List Json)) (tokenO : Option String)
    (net : Nat → SyncRequest → NetResult) (args : Args)
    (hbuild : buildStep env fileO domoO tokenO args = .ok []) :
    mainModel env fileO domoO tokenO net args = (1, []) := by
  unfold mainModel
  rw [hbuild]
  split
  next x c heqq => exact absurd heqq (by simp)
  next x p2 heqq =>
    have hp2 : p2 = [] := by
      injection heqq with hinj
      exact hinj.symm
    subst hp2
    split
    · simp
    · simp_all

/-- Witness for C7: local mode with a single unknown key builds an empty
payload; the run exits 1 with an empty request trace. -/
theorem c7_empty_payload_witness :
    buildStep (fun _ => some "http://x") (fun _ => none) (fun _ => none) none
      ⟨some ["bogus=x"], false, false, none⟩ = .ok [] ∧
    mainModel (fun _ => some "http://x") (fun _ => none) (fun _ => none) none
      (fun _ _ => .exn "boom") ⟨some ["bogus=x"], false, false, none⟩ = (1, []) := by
  refine ⟨rfl, ?_⟩
  exact c7_empty_payload _ _ _ _ _ _ rfl

/-! ### Claim C2: small datasets are sent as exactly one request. -/

/-- C2: for a dataset at or below the chunk threshold, `post_sync`
issues exactly one request for it — body `{key: rows}` with the rows
unchanged — carrying only the content-type header, hence none of the
chunk-position, total-row-count, or fingerprint headers. This holds
whatever the network does (even if the request fails). -/
theorem c2_small_dataset_single_request (net : Nat → SyncRequest → NetResult)
    (base_url : String) (payload : List (String × List Json)) (key : String)
    (rows : List Json) (hnd : (payload.map Prod.fst).Nodup)
    (hmem : (key, rows) ∈ payload) (hsize : rows.length ≤ CHUNK_ROWS) :
    (post_sync net base_url payload).2.filter (fun r => r.key == key) =
      [⟨pyRstripSlashes base_url ++ "/api/leasing/sync", key, rows,
        [("Content-Type", "application/json")]⟩] ∧
    (∀ r ∈ (post_sync net base_url payload).2, r.key = key →
      dictLookup r.headers "X-Leasing-Sync-First-Chunk" = none ∧
      dictLookup r.headers "X-Leasing-Sync-Last-Chunk" = none ∧
      dictLookup r.headers "X-Leasing-Sync-Total-Rows" = none ∧
      dictLookup r.headers "X-Leasing-Sync-Data-Hash" = none) := by
  have htr : (post_sync net base_url payload).2 =
      (syncLoop net (pyRstripSlashes base_url ++ "/api/leasing/sync") payload
        ⟨[], [], []⟩ 0).2.2 := rfl
  obtain ⟨st2, cnt2, hfil⟩ := syncLoop_filter net
    (pyRstripSlashes base_url ++ "/api/leasing/sync") payload ⟨[], [], []⟩ 0 key rows
    hnd hmem
  have hone := (processDataset_small net
    (pyRstripSlashes base_url ++ "/api/leasing/sync") key rows st2 cnt2 hsize).1
  have hmain : (post_sync net base_url payload).2.filter (fun r => r.key == key) =
      [⟨pyRstripSlashes base_url ++ "/api/leasing/sync", key, rows,
        [("Content-Type", "application/json")]⟩] := by
    rw [htr, hfil, hone]
  refine ⟨hmain, ?_⟩
  intro r hr hkey
  have hrf : r ∈ (post_sync net base_url payload).2.filter (fun q => q.key == key) :=
    List.mem_filter.mpr ⟨hr, by simp [hkey]⟩
  rw [hmain] at hrf
  simp only [List.mem_singleton] at hrf
  subst hrf
  exact ⟨rfl, rfl, rfl, rfl⟩

/-- Witness for C2 at a one-dataset payload whose request fails. -/
theorem c2_small_dataset_single_request_witness :
    ([("leasing", [Json.null])].map Prod.fst).Nodup ∧
    ("leasing", [Json.null]) ∈ [("leasing", [Json.null])] ∧
    ([Json.null] : List Json).length ≤ CHUNK_ROWS ∧
    (post_sync (fun _ _ => .exn "boom") "http://x/" [("leasing", [Json.null])]).2.filter
        (fun r => r.key == "leasing") =
      [⟨pyRstripSlashes "http://x/" ++ "/api/leasing/sync", "leasing", [Json.null],
        [("Content-Type", "application/json")]⟩] := by
  refine ⟨by simp, by simp, by decide, ?_⟩
  exact (c2_small_dataset_single_request (fun _ _ => .exn "boom") "http://x/"
    [("leasing", [Json.null])] "leasing" [Json.null] (by simp) (by simp) (by decide)).1

/-! ### Claims C1 and C4: the chunked upload and failure isolation. -/

/-- C1: for a dataset above the chunk threshold, when every request
succeeds, `post_sync` issues one request per chunk whose bodies are
consecutive chunks of at most `CHUNK_ROWS` rows partitioning the rows in
order (no overlap, no gap), the number of requests is
`⌈rowCount / CHUNK_ROWS⌉`, and the total-row-count and fingerprint
headers appear on the final chunk's request only, valued at the full
dataset's row count and `_data_hash`. -/
theorem c1_chunked_partition_and_headers (net : Nat → SyncRequest → NetResult)
    (base_url : String) (payload : List (String × List Json)) (key : String)
    (rows : List Json) (chunks : List (List Json)) (tr : List SyncRequest)
    (hnd : (payload.map Prod.fst).Nodup) (hmem : (key, rows) ∈ payload)
    (hbig : CHUNK_ROWS < rows.length)
    (hok : ∀ i r, breaks (net i r) = false)
    (hch : chunks = chunkList CHUNK_ROWS rows)
    (htr : tr = (post_sync net base_url payload).2.filter (fun r => r.key == key)) :
    chunks.flatten = rows ∧
    (∀ ch ∈ chunks, ch ≠ [] ∧ ch.length ≤ CHUNK_ROWS) ∧
    tr.map SyncRequest.body = chunks ∧
    tr.length = (rows.length + CHUNK_ROWS - 1) / CHUNK_ROWS ∧
    (∀ i req, tr[i]? = some req →
      (dictLookup req.headers "X-Leasing-Sync-Total-Rows" =
        if i = tr.length - 1 then some (natDumps rows.length) else none) ∧
      (dictLookup req.headers "X-Leasing-Sync-Data-Hash" =
        if i = tr.length - 1 then some (dataHash rows) else none)) := by
  have hn0 : CHUNK_ROWS ≠ 0 := by decide
  have hnle : ¬ rows.length ≤ CHUNK_ROWS := by omega
  obtain ⟨st2, cnt2, hfil⟩ := syncLoop_filter net
    (pyRstripSlashes base_url ++ "/api/leasing/sync") payload ⟨[], [], []⟩ 0 key rows
    hnd hmem
  have hpd := processDataset_chunked net
    (pyRstripSlashes base_url ++ "/api/leasing/sync") key rows st2 cnt2 hnle
  have hallok := (sendChunks_all_ok net (pyRstripSlashes base_url ++ "/api/leasing/sync")
    key (chunkList CHUNK_ROWS rows).length rows.length (dataHash rows)
    (chunkList CHUNK_ROWS rows) 0 st2 cnt2 (fun i r _ _ => hok i r)).1
  have htr2 : tr = chunkReqs (pyRstripSlashes base_url ++ "/api/leasing/sync") key
      (chunkList CHUNK_ROWS rows).length rows.length (dataHash rows) 0
      (chunkList CHUNK_ROWS rows) := by
    rw [htr]
    rw [show (post_sync net base_url payload).2 =
      (syncLoop net (pyRstripSlashes base_url ++ "/api/leasing/sync") payload
        ⟨[], [], []⟩ 0).2.2 from rfl]
    rw [hfil, hpd, hallok]
  have hlen : tr.length = (chunkList CHUNK_ROWS rows).length := by
    rw [htr2, chunkReqs_length]
  subst hch
  refine ⟨chunkList_flatten CHUNK_ROWS hn0 rows,
    fun ch hm => chunkList_mem CHUNK_ROWS hn0 rows ch hm, ?_, ?_, ?_⟩
  · rw [htr2]
    exact chunkReqs_map_body _ _ _ _ _ 0 _
  · rw [hlen, chunkList_length CHUNK_ROWS hn0]
  · intro i req hreq
    rw [htr2, chunkReqs_getElem] at hreq
    cases hci : (chunkList CHUNK_ROWS rows)[i]? with
    | none => rw [hci] at hreq; simp at hreq
    | some ch =>
      rw [hci] at hreq
      simp only [Option.map_some', Option.some.injEq] at hreq
      have hic : i = 0 + i := by omega
      have hhd : req.headers = mkChunkHeaders (chunkList CHUNK_ROWS rows).length
          rows.length (dataHash rows) (0 + i) :=
        (congrArg SyncRequest.headers hreq).symm
      constructor
      · rw [hhd, lookup_mkChunkHeaders_total, hlen]
        rw [← hic]
      · rw [hhd, lookup_mkChunkHeaders_hash, hlen]
        rw [← hic]

/-- Witness for C1: a 5001-row dataset on an always-succeeding network:
two chunks, `⌈5001 / 5000⌉ = 2` requests whose bodies partition the
rows. -/
theorem c1_chunked_partition_and_headers_witness :
    CHUNK_ROWS < (List.replicate 5001 Json.null).length ∧
    (chunkList CHUNK_ROWS (List.replicate 5001 Json.null)).flatten =
      List.replicate 5001 Json.null ∧
    ((post_sync (fun _ _ => .resp 200 (some (.obj [])) "") "http://x"
        [("leasing", List.replicate 5001 Json.null)]).2.filter
      (fun r => r.key == "leasing")).length =
      ((List.replicate 5001 Json.null).length + CHUNK_ROWS - 1) / CHUNK_ROWS := by
  have h := c1_chunked_partition_and_headers (fun _ _ => .resp 200 (some (.obj [])) "")
    "http://x" [("leasing", List.replicate 5001 Json.null)] "leasing"
    (List.replicate 5001 Json.null) (chunkList CHUNK_ROWS (List.replicate 5001 Json.null))
    ((post_sync (fun _ _ => .resp 200 (some (.obj [])) "") "http://x"
        [("leasing", List.replicate 5001 Json.null)]).2.filter
      (fun r => r.key == "leasing"))
    (by exact List.nodup_singleton "leasing") (List.mem_singleton_self _)
    (by rw [List.length_replicate]; decide) (fun i r => rfl) rfl rfl
  exact ⟨by rw [List.length_replicate]; decide, h.1, h.2.2.2.1⟩

/-- C4: a request failure (exception) for one dataset never prevents any
later dataset in the payload from being attempted — every dataset always
gets at least one request, whatever the network does; and within a
chunked dataset, an exception at chunk `k` (the earlier chunks not having
failed) stops that dataset after exactly `k + 1` requests and appends an
error record for it. -/
theorem c4_failure_isolation (net : Nat → SyncRequest → NetResult) :
    (∀ (base_url : String) (payload : List (String × List Json))
      (p : String × List Json), p ∈ payload →
      ∃ r ∈ (post_sync net base_url payload).2, r.key = p.1) ∧
    (∀ (url key : String) (rows : List Json) (st : SyncState) (cnt k : Nat)
      (msg : String),
      CHUNK_ROWS < rows.length → k < (chunkList CHUNK_ROWS rows).length →
      (∀ i r, cnt ≤ i → i < cnt + k → breaks (net i r) = false) →
      (∀ r, net (cnt + k) r = .exn msg) →
      (processDataset net url key rows st cnt).2.2.length = k + 1 ∧
      ∃ es, (processDataset net url key rows st cnt).1.errors =
        st.errors ++ es ++ [mkErr key msg]) := by
  constructor
  · intro base_url payload p hp
    rcases p with ⟨k, rows⟩
    exact syncLoop_attempts net (pyRstripSlashes base_url ++ "/api/leasing/sync")
      payload ⟨[], [], []⟩ 0 k rows hp
  · intro url key rows st cnt k msg hbig hk H Hexn
    have hnle : ¬ rows.length ≤ CHUNK_ROWS := by omega
    rw [processDataset_chunked net url key rows st cnt hnle]
    obtain ⟨h1, es, h2⟩ := sendChunks_break_at net url key
      (chunkList CHUNK_ROWS rows).length rows.length (dataHash rows) msg k
      (chunkList CHUNK_ROWS rows) 0 st cnt hk H Hexn
    refine ⟨?_, es, h2⟩
    rw [h1, chunkReqs_length, List.length_take]
    omega

/-- Witness for C4: with a network that always raises, the first dataset
fails yet the second is still attempted; a 5001-row chunked dataset
failing on its first chunk issues exactly one request and records one
error. -/
theorem c4_failure_isolation_witness :
    (∃ r ∈ (post_sync (fun _ _ => .exn "boom") "http://x"
        [("leasing", [Json.null]), ("pricing", [Json.null])]).2, r.key = "pricing") ∧
    (processDataset (fun _ _ => .exn "boom") "u" "leasing"
      (List.replicate 5001 Json.null) ⟨[], [], []⟩ 0).2.2.length = 0 + 1 ∧
    ∃ es, (processDataset (fun _ _ => .exn "boom") "u" "leasing"
      (List.replicate 5001 Json.null) ⟨[], [], []⟩ 0).1.errors =
        ([] : List Json) ++ es ++ [mkErr "leasing" "boom"] := by
  have h := c4_failure_isolation (fun _ _ => .exn "boom")
  have h2 := h.2 "u" "leasing" (List.replicate 5001 Json.null) ⟨[], [], []⟩ 0 0 "boom"
    (by rw [List.length_replicate]; decide)
    (by
      rw [chunkList_length CHUNK_ROWS (by decide) (List.replicate 5001 Json.null)]
      rw [List.length_replicate]
      decide)
    (fun i r h1 hlt => absurd hlt (by omega))
    (fun r => rfl)
  exact ⟨h.1 "http://x" [("leasing", [Json.null]), ("pricing", [Json.null])]
    ("pricing", [Json.null]) (by simp), h2.1, h2.2⟩

/-! ### Claim C5: exit statuses. -/

theorem parseLocalPairsAux_error_one :
    ∀ (pairs : List String) (acc : List (String × String)) (c : Nat),
      parseLocalPairsAux acc pairs = .error c → c = 1 := by
  intro pairs
  induction pairs with
  | nil => intro acc c h; cases h
  | cons pair rest ih =>
    intro acc c h
    unfold parseLocalPairsAux at h
    split at h
    · exact ih _ c h
    · injection h with h'
      exact h'.symm

theorem domoModeBuild_shape (env : String → Option String)
    (domoO : String → Option (List Json)) (tokenO : Option String) (skipPud : Bool) :
    domoModeBuild env domoO tokenO skipPud = .error 1 ∨
    ∃ p, domoModeBuild env domoO tokenO skipPud = .ok p := by
  by_cases h1 : pyStrip ((env "DOMO_CLIENT_ID").getD "") = ""
  · left
    simp [domoModeBuild, h1]
  · by_cases h1b : pyStrip ((env "DOMO_CLIENT_SECRET").getD "") = ""
    · left
      simp [domoModeBuild, h1, h1b]
    · by_cases h2 : ((DATASET_ID_ENV.map fun p => (p.1, pyStrip ((env p.2).getD ""))).all
          fun p => decide (p.2 = "")) = true
      · left
        simp [domoModeBuild, h1, h1b, h2]
      · cases tokenO with
        | none =>
          left
          simp [domoModeBuild, h1, h1b, h2]
        | some t =>
          right
          by_cases h3 : (skipPud && dictHas (build_payload_from_domo domoO
              (DATASET_ID_ENV.map fun p => (p.1, pyStrip ((env p.2).getD "")))
              (if skipPud = true then ["portfolioUnitDetails"] else []))
              "portfolioUnitDetails") = true
          · refine ⟨dictDel (build_payload_from_domo domoO
              (DATASET_ID_ENV.map fun p => (p.1, pyStrip ((env p.2).getD "")))
              (if skipPud = true then ["portfolioUnitDetails"] else []))
              "portfolioUnitDetails", ?_⟩
            simp [domoModeBuild, h1, h1b, h2, h3]
          · refine ⟨build_payload_from_domo domoO
              (DATASET_ID_ENV.map fun p => (p.1, pyStrip ((env p.2).getD "")))
              (if skipPud = true then ["portfolioUnitDetails"] else []), ?_⟩
            simp [domoModeBuild, h1, h1b, h2, h3]

theorem domoModeBuild_error_one (env : String → Option String)
    (domoO : String → Option (List Json)) (tokenO : Option String) (skipPud : Bool)
    (c : Nat) (h : domoModeBuild env domoO tokenO skipPud = .error c) : c = 1 := by
  rcases domoModeBuild_shape env domoO tokenO skipPud with hs | ⟨p, hs⟩
  · rw [hs] at h
    injection h with h'
    exact h'.symm
  · rw [hs] at h
    cases h

theorem applyOnlyStep_shape (payload : List (String × List Json))
    (only : Option String) :
    applyOnlyStep payload only = .error 1 ∨ ∃ p, applyOnlyStep payload only = .ok p := by
  cases only with
  | none => exact Or.inr ⟨payload, rfl⟩
  | some s =>
    by_cases hs : s = ""
    · right
      refine ⟨payload, ?_⟩
      simp [applyOnlyStep, hs]
    · by_cases hk : pyStrip s = ""
      · right
        refine ⟨payload, ?_⟩
        simp [applyOnlyStep, hs, hk]
      · by_cases hh : dictHas payload (pyStrip s) = true
        · right
          refine ⟨[(pyStrip s, (dictLookup payload (pyStrip s)).getD [])], ?_⟩
          simp [applyOnlyStep, hs, hk, hh]
        · left
          simp [applyOnlyStep, hs, hk, hh]

theorem applyOnlyStep_error_one (payload : List (String × List Json))
    (only : Option String) (c : Nat) (h : applyOnlyStep payload only = .error c) :
    c = 1 := by
  rcases applyOnlyStep_shape payload only with hs | ⟨p, hs⟩
  · rw [hs] at h
    injection h with h'
    exact h'.symm
  · rw [hs] at h
    cases h

theorem buildStep_error_one (env : String → Option String) (fileO : String → Option Json)
    (domoO : String → Option (List Json)) (tokenO : Option String) (args : Args)
    (c : Nat) (h : buildStep env fileO domoO tokenO args = .error c) : c = 1 := by
  rcases hla : args.localArgs with _ | ls
  · have hred : buildStep env fileO domoO tokenO args =
        domoModeBuild env domoO tokenO args.skipPud := by
      unfold buildStep
      rw [hla]
    rw [hred] at h
    exact domoModeBuild_error_one env domoO tokenO args.skipPud c h
  · rcases ls with _ | ⟨p, ps⟩
    · have hred : buildStep env fileO domoO tokenO args =
          domoModeBuild env domoO tokenO args.skipPud := by
        unfold buildStep
        rw [hla]
      rw [hred] at h
      exact domoModeBuild_error_one env domoO tokenO args.skipPud c h
    · have hred : buildStep env fileO domoO tokenO args =
          (match parseLocalPairs (p :: ps) with
            | .error c0 => .error c0
            | .ok lp => .ok (build_payload_from_local fileO lp)) := by
        unfold buildStep
        rw [hla]
      rw [hred] at h
      rcases hpl : parseLocalPairs (p :: ps) with c' | lp
      · rw [hpl] at h
        injection h with h'
        rw [← h']
        exact parseLocalPairsAux_error_one (p :: ps) [] c' hpl
      · rw [hpl] at h
        cases h

theorem post_sync_success_iff (net : Nat → SyncRequest → NetResult) (b : String)
    (p : List (String × List Json)) :
    (post_sync net b p).1.success = true ↔ (post_sync net b p).1.errors = none := by
  unfold post_sync
  cases h : (syncLoop net (pyRstripSlashes b ++ "/api/leasing/sync") p
      ⟨[], [], []⟩ 0).1.errors.isEmpty <;> simp [h]

theorem post_sync_errors_some_ne_nil (net : Nat → SyncRequest → NetResult) (b : String)
    (p : List (String × List Json)) (es : List Json)
    (h : (post_sync net b p).1.errors = some es) : es ≠ [] := by
  unfold post_sync at h
  cases hh : (syncLoop net (pyRstripSlashes b ++ "/api/leasing/sync") p
      ⟨[], [], []⟩ 0).1.errors.isEmpty
  · simp only [hh, Bool.false_eq_true, if_false, Option.some.injEq] at h
    rw [← h]
    intro hnil
    rw [hnil] at hh
    simp at hh
  · simp [hh] at h

theorem buildStep_fail_main (env : String → Option String) (fileO : String → Option Json)
    (domoO : String → Option (List Json)) (tokenO : Option String)
    (net : Nat → SyncRequest → NetResult) (args : Args) (c : Nat)
    (h : buildStep env fileO domoO tokenO args = .error c) :
    mainModel env fileO domoO tokenO net args = (1, []) := by
  have hc := buildStep_error_one env fileO domoO tokenO args c h
  subst hc
  unfold mainModel
  rw [h]
  split
  next x c2 heqq =>
    injection heqq with hinj
    subst hinj
    simp
  next x p2 heqq => cases heqq

theorem mainModel_ok_red (env : String → Option String) (fileO : String → Option Json)
    (domoO : String → Option (List Json)) (tokenO : Option String)
    (net : Nat → SyncRequest → NetResult) (args : Args)
    (payload : List (String × List Json))
    (hbs : buildStep env fileO domoO tokenO args = .ok payload) :
    mainModel env fileO domoO tokenO net args =
      (if (decide (pyStrip ((env "API_BASE_URL").getD "") = "") && !args.dryRun) = true
        then (1, [])
       else
        if payload.isEmpty = true then (1, [])
        else
          match applyOnlyStep payload args.only with
          | .error c => (c, [])
          | .ok payload2 =>
            if args.dryRun = true then (0, [])
            else
              ((match (post_sync net (pyStrip ((env "API_BASE_URL").getD ""))
                  payload2).1.errors with
                | none => 0
                | some es => if es.isEmpty = true then 0 else 2),
               (post_sync net (pyStrip ((env "API_BASE_URL").getD "")) payload2).2)) := by
  unfold mainModel
  rw [hbs]

theorem mainModel_shape (env : String → Option String) (fileO : String → Option Json)
    (domoO : String → Option (List Json)) (tokenO : Option String)
    (net : Nat → SyncRequest → NetResult) (args : Args) :
    mainModel env fileO domoO tokenO net args = (1, []) ∨
    mainModel env fileO domoO tokenO net args = (0, []) ∨
    ∃ payload2, mainModel env fileO domoO tokenO net args =
      ((if (post_sync net (pyStrip ((env "API_BASE_URL").getD "")) payload2).1.errors.isNone
          then 0 else 2),
       (post_sync net (pyStrip ((env "API_BASE_URL").getD "")) payload2).2) := by
  rcases hbs : buildStep env fileO domoO tokenO args with c' | payload
  · left
    exact buildStep_fail_main env fileO domoO tokenO net args c' hbs
  · rw [mainModel_ok_red env fileO domoO tokenO net args payload hbs]
    cases hemp : payload.isEmpty
    · rcases hao : applyOnlyStep payload args.only with c' | p2
      · have hc := applyOnlyStep_error_one payload args.only c' hao
        subst hc
        left
        simp [hemp]
      · cases hdr : args.dryRun
        · by_cases hb : pyStrip ((env "API_BASE_URL").getD "") = ""
          · left
            simp [hb, hdr]
          · right
            right
            refine ⟨p2, ?_⟩
            rcases hoe : (post_sync net (pyStrip ((env "API_BASE_URL").getD ""))
                p2).1.errors with _ | es
            · simp [hb, hdr, hemp, hoe]
            · have hnes : es ≠ [] :=
                post_sync_errors_some_ne_nil net _ p2 es hoe
              have hesb : es.isEmpty = false := by
                cases es with
                | nil => exact absurd rfl hnes
                | cons a l => rfl
              simp [hb, hdr, hemp, hoe, hesb]
        · right
          left
          simp [hemp, hdr]
    · left
      simp [hemp]

/-- C5: `post_sync` reports success exactly when the accumulated error
list is empty; the exit status is always 0, 1 or 2; an exit status of 1
occurs only before any sync request is issued (empty trace); every
configuration or payload-building failure (missing base URL, bad
`--local` pair, missing credentials or dataset IDs, token failure) exits
with status 1 and an empty trace; a dry run exits 0 with no requests;
and a real sync exits 0 exactly when `post_sync` accumulated no error
records and 2 when it accumulated some. -/
theorem c5_exit_codes :
    (∀ (net : Nat → SyncRequest → NetResult) (b : String)
      (p : List (String × List Json)),
      (post_sync net b p).1.success = true ↔ (post_sync net b p).1.errors = none) ∧
    (∀ env fileO domoO tokenO net args c tr,
      mainModel env fileO domoO tokenO net args = (c, tr) →
      (c = 0 ∨ c = 1 ∨ c = 2) ∧ (c = 1 → tr = [])) ∧
    (∀ env fileO domoO tokenO net args c,
      buildStep env fileO domoO tokenO args = .error c →
      c = 1 ∧ mainModel env fileO domoO tokenO net args = (1, [])) ∧
    (∀ env fileO domoO tokenO net args,
      pyStrip ((env "API_BASE_URL").getD "") = "" → args.dryRun = false →
      mainModel env fileO domoO tokenO net args = (1, [])) ∧
    (∀ env fileO domoO tokenO net args payload payload2,
      args.dryRun = true → buildStep env fileO domoO tokenO args = .ok payload →
      payload ≠ [] → applyOnlyStep payload args.only = .ok payload2 →
      mainModel env fileO domoO tokenO net args = (0, [])) ∧
    (∀ env fileO domoO tokenO net args payload payload2,
      args.dryRun = false → pyStrip ((env "API_BASE_URL").getD "") ≠ "" →
      buildStep env fileO domoO tokenO args = .ok payload → payload ≠ [] →
      applyOnlyStep payload args.only = .ok payload2 →
      mainModel env fileO domoO tokenO net args =
        ((if (post_sync net (pyStrip ((env "API_BASE_URL").getD ""))
            payload2).1.errors.isNone then 0 else 2),
         (post_sync net (pyStrip ((env "API_BASE_URL").getD "")) payload2).2)) := by
  refine ⟨post_sync_success_iff, ?_, ?_, ?_, ?_, ?_⟩
  · intro env fileO domoO tokenO net args c tr h
    rcases mainModel_shape env fileO domoO tokenO net args with hs | hs | ⟨p2, hs⟩
    · rw [hs] at h
      injection h with h1 h2
      exact ⟨Or.inr (Or.inl h1.symm), fun _ => h2.symm⟩
    · rw [hs] at h
      injection h with h1 h2
      exact ⟨Or.inl h1.symm, fun hc => absurd (h1.trans hc) (by decide)⟩
    · rw [hs] at h
      injection h with h1 h2
      cases hoe : (post_sync net (pyStrip ((env "API_BASE_URL").getD ""))
          p2).1.errors.isNone
      · rw [hoe] at h1
        simp only [Bool.false_eq_true, if_false] at h1
        exact ⟨Or.inr (Or.inr h1.symm), fun hc => absurd (h1.trans hc) (by decide)⟩
      · rw [hoe] at h1
        simp only [if_true] at h1
        exact ⟨Or.inl h1.symm, fun hc => absurd (h1.trans hc) (by decide)⟩
  · intro env fileO domoO tokenO net args c h
    exact ⟨buildStep_error_one env fileO domoO tokenO args c h,
      buildStep_fail_main env fileO domoO tokenO net args c h⟩
  · intro env fileO domoO tokenO net args hbase hdry
    unfold mainModel
    rcases hbs : buildStep env fileO domoO tokenO args with c' | payload
    · have hc := buildStep_error_one env fileO domoO tokenO args c' hbs
      subst hc
      simp [hbase, hdry]
    · simp [hbase, hdry]
  · intro env fileO domoO tokenO net args payload payload2 hdry hbuild hne happ
    have hemp : payload.isEmpty = false := by
      cases payload with
      | nil => exact absurd rfl hne
      | cons a l => rfl
    rw [mainModel_ok_red env fileO domoO tokenO net args payload hbuild]
    simp [hemp, hdry, happ]
  · intro env fileO domoO tokenO net args payload payload2 hdry hbase hbuild hne happ
    have hemp : payload.isEmpty = false := by
      cases payload with
      | nil => exact absurd rfl hne
      | cons a l => rfl
    rw [mainModel_ok_red env fileO domoO tokenO net args payload hbuild]
    rcases hoe : (post_sync net (pyStrip ((env "API_BASE_URL").getD ""))
        payload2).1.errors with _ | es
    · have hisn : (post_sync net (pyStrip ((env "API_BASE_URL").getD ""))
          payload2).1.errors.isNone = true := by
        rw [hoe]
        rfl
      simp [hemp, hdry, hbase, happ, hoe, hisn]
    · have hnes : es ≠ [] := post_sync_errors_some_ne_nil net _ payload2 es hoe
      have hesb : es.isEmpty = false := by
        cases es with
        | nil => exact absurd rfl hnes
        | cons a l => rfl
      have hisn : (post_sync net (pyStrip ((env "API_BASE_URL").getD ""))
          payload2).1.errors.isNone = false := by
        rw [hoe]
        rfl
      simp [hemp, hdry, hbase, happ, hoe, hesb, hisn]

/-- Witness for C5: a one-dataset payload whose single request raises
gives exit status 2; the same run with `--dry-run` gives exit 0 and no
requests; an absent base URL gives exit 1 with no requests. -/
theorem c5_exit_codes_witness :
    ((post_sync (fun _ _ => .exn "boom") "http://x" [("leasing", [Json.null])]).1.success
      = true ↔
     (post_sync (fun _ _ => .exn "boom") "http://x" [("leasing", [Json.null])]).1.errors
      = none) ∧
    mainModel (fun k => if k = "API_BASE_URL" then some "http://x" else none)
      (fun _ => some (Json.arr [Json.null])) (fun _ => none) none
      (fun _ _ => .exn "boom") ⟨some ["leasing=a.json"], false, false, none⟩ =
      (2, (post_sync (fun _ _ => .exn "boom") "http://x"
        [("leasing", [Json.null])]).2) ∧
    mainModel (fun k => if k = "API_BASE_URL" then some "http://x" else none)
      (fun _ => some (Json.arr [Json.null])) (fun _ => none) none
      (fun _ _ => .exn "boom") ⟨some ["leasing=a.json"], true, false, none⟩ = (0, []) ∧
    mainModel (fun _ => none) (fun _ => some (Json.arr [Json.null])) (fun _ => none) none
      (fun _ _ => .exn "boom") ⟨some ["leasing=a.json"], false, false, none⟩ = (1, []) := by
  have h := c5_exit_codes
  refine ⟨h.1 (fun _ _ => .exn "boom") "http://x" [("leasing", [Json.null])], ?_, ?_, ?_⟩
  · have h6 := h.2.2.2.2.2 (fun k => if k = "API_BASE_URL" then some "http://x" else none)
      (fun _ => some (Json.arr [Json.null])) (fun _ => none) none
      (fun _ _ => .exn "boom") ⟨some ["leasing=a.json"], false, false, none⟩
      [("leasing", [Json.null])] [("leasing", [Json.null])]
      rfl (by decide) rfl (by simp) rfl
    rw [h6]
    rfl
  · exact h.2.2.2.2.1 (fun k => if k = "API_BASE_URL" then some "http://x" else none)
      (fun _ => some (Json.arr [Json.null])) (fun _ => none) none
      (fun _ _ => .exn "boom") ⟨some ["leasing=a.json"], true, false, none⟩
      [("leasing", [Json.null])] [("leasing", [Json.null])]
      rfl rfl (by simp) rfl
  · exact h.2.2.2.1 (fun _ => none) (fun _ => some (Json.arr [Json.null])) (fun _ => none)
      none (fun _ _ => .exn "boom") ⟨some ["leasing=a.json"], false, false, none⟩ rfl rfl

/-! ### Claim C3: the dataset fingerprint. -/

/-- C3 counterexample: the fingerprint truncates SHA-256 to 128 bits, so
by pigeonhole over the infinitely many row counts (with the same 50-row
sample), two row lists of different lengths exist whose fingerprints
collide. This refutes the claim that two row sequences with different row
counts always yield different fingerprints. -/
theorem c3_counterexample_hash_collision :
    ∃ r1 r2 : List Json, r1.length ≠ r2.length ∧ dataHash r1 = dataHash r2 := by
  obtain ⟨x, y, hxy, hf⟩ := Finite.exists_ne_map_eq_of_infinite hashProbeFin
  refine ⟨List.replicate (x + 50) Json.null, List.replicate (y + 50) Json.null, ?_, ?_⟩
  · simp only [List.length_replicate]
    omega
  · have h0 : (hashProbe x).w0 = (hashProbe y).w0 := congrArg (fun p => p.1.val) hf
    have h1 : (hashProbe x).w1 = (hashProbe y).w1 := congrArg (fun p => p.2.1.val) hf
    have h2 : (hashProbe x).w2 = (hashProbe y).w2 := congrArg (fun p => p.2.2.1.val) hf
    have h3 : (hashProbe x).w3 = (hashProbe y).w3 :=
      congrArg (fun p => p.2.2.2.1.val) hf
    have h4 : (hashProbe x).w4 = (hashProbe y).w4 :=
      congrArg (fun p => p.2.2.2.2.1.val) hf
    have h5 : (hashProbe x).w5 = (hashProbe y).w5 :=
      congrArg (fun p => p.2.2.2.2.2.1.val) hf
    have h6 : (hashProbe x).w6 = (hashProbe y).w6 :=
      congrArg (fun p => p.2.2.2.2.2.2.1.val) hf
    have h7 : (hashProbe x).w7 = (hashProbe y).w7 :=
      congrArg (fun p => p.2.2.2.2.2.2.2.val) hf
    have hd : hashProbe x = hashProbe y := digestExt h0 h1 h2 h3 h4 h5 h6 h7
    show String.mk ((digestHexChars (hashProbe x)).take 32) =
      String.mk ((digestHexChars (hashProbe y)).take 32)
    rw [hd]

/-- C3 (amended): the fingerprint is a deterministic function of the
total row count and the first 50 rows — computed from the full dataset
before any chunking, so independent of chunk boundaries — and two row
sequences with different row counts always yield different SHA-256
*inputs* (the fingerprint itself is a 128-bit truncation, which cannot be
injective over unboundedly many counts). -/
theorem c3_fingerprint_amended (r1 r2 : List Json) :
    (r1.length = r2.length → r1.take 50 = r2.take 50 → dataHash r1 = dataHash r2) ∧
    (r1.length ≠ r2.length → dataHashPayloadChars r1 ≠ dataHashPayloadChars r2) := by
  constructor
  · intro hlen hsample
    have hp : dataHashPayloadChars r1 = dataHashPayloadChars r2 := by
      unfold dataHashPayloadChars
      rw [hlen, hsample]
    unfold dataHash
    rw [hp]
  · exact dataHashPayloadChars_len_inj

/-- Witness for C3 (amended) at concrete row lists. -/
theorem c3_fingerprint_amended_witness :
    dataHash [Json.obj []] = dataHash [Json.obj []] ∧
    (([] : List Json).length ≠ [Json.null].length ∧
      dataHashPayloadChars [] ≠ dataHashPayloadChars [Json.null]) :=
  ⟨(c3_fingerprint_amended [Json.obj []] [Json.obj []]).1 rfl rfl,
   by decide,
   (c3_fingerprint_amended [] [Json.null]).2 (by decide)⟩

end DomoSync

namespace DomoSync

/-! ### Claim C10: the HTTP status code and response aggregation. -/

/-- Whether a parsed body is a dict with a truthy `"errors"` field (the
condition `data.get("errors")` tests). -/
def hasTruthyErrors : Json → Bool
  | .obj fs =>
    (match dictLookup fs "errors" with
      | some e => isTruthy e
      | none => false)
  | _ => false

/-- C10 counterexample: a response with status 200 whose body parses as
the JSON value `5` — no non-empty `"errors"` field anywhere — still
contributes an error record: `data.get("synced", [])` raises
`AttributeError` on a non-dict, the per-request handler catches it and
appends an error for the dataset. So "contains no non-empty errors field
⟹ zero error records" is false as stated. -/
theorem c10_counterexample_nonobject_body :
    hasTruthyErrors (Json.num 5) = false ∧
    ((processDataset (fun _ _ => .resp 200 (some (Json.num 5)) "") "u" "leasing"
      [Json.null] ⟨[], [], []⟩ 0).1.errors).length = 1 :=
  ⟨rfl, rfl⟩

/-- Two network results that differ only in HTTP status code (and raw
text / exception message): same raised-vs-responded shape, same
parsed-vs-unparseable shape, same parsed JSON value when parseable. -/
def sameOutcome : NetResult → NetResult → Prop
  | .exn _, .exn _ => True
  | .resp _ none _, .resp _ none _ => True
  | .resp _ (some v) _, .resp _ (some w) _ => v = w
  | _, _ => False

/-- States equal except possibly in error-message texts: identical
synced/skipped rows and the same number of error records. -/
def stRel (a b : SyncState) : Prop :=
  a.synced = b.synced ∧ a.skipped = b.skipped ∧ a.errors.length = b.errors.length

theorem collect_rel (key : String) (s1 s2 : Nat) (b : Option Json) (t1 t2 : String)
    (st1 st2 : SyncState) (hrel : stRel st1 st2) :
    stRel (_collect_response key s1 b t1 st1).1 (_collect_response key s2 b t2 st2).1 ∧
    (_collect_response key s1 b t1 st1).2 = (_collect_response key s2 b t2 st2).2 := by
  cases b with
  | none =>
    refine ⟨⟨hrel.1, hrel.2.1, ?_⟩, rfl⟩
    simp only [_collect_response, addErr, List.length_append, List.length_cons,
      List.length_nil]
    have := hrel.2.2
    omega
  | some v =>
    refine ⟨⟨?_, ?_, ?_⟩, rfl⟩
    · simp only [_collect_response, hrel.1]
    · simp only [_collect_response, hrel.2.1]
    · simp only [_collect_response, List.length_append]
      have := hrel.2.2
      omega

theorem sendChunks_rel (net1 net2 : Nat → SyncRequest → NetResult) (url key : String)
    (nc tot : Nat) (hs : String)
    (H : ∀ i r, sameOutcome (net1 i r) (net2 i r)) :
    ∀ (chs : List (List Json)) (c : Nat) (st1 st2 : SyncState) (cnt : Nat),
      stRel st1 st2 →
      stRel (sendChunks net1 url key nc tot hs chs c st1 cnt).1
            (sendChunks net2 url key nc tot hs chs c st2 cnt).1 ∧
      (sendChunks net1 url key nc tot hs chs c st1 cnt).2.1 =
        (sendChunks net2 url key nc tot hs chs c st2 cnt).2.1 ∧
      (sendChunks net1 url key nc tot hs chs c st1 cnt).2.2 =
        (sendChunks net2 url key nc tot hs chs c st2 cnt).2.2 := by
  intro chs
  induction chs with
  | nil => intro c st1 st2 cnt hrel; exact ⟨hrel, rfl, rfl⟩
  | cons chunk rest ih =>
    intro c st1 st2 cnt hrel
    have hso := H cnt ⟨url, key, chunk, mkChunkHeaders nc tot hs c⟩
    cases hn1 : net1 cnt ⟨url, key, chunk, mkChunkHeaders nc tot hs c⟩ with
    | exn m1 =>
      cases hn2 : net2 cnt ⟨url, key, chunk, mkChunkHeaders nc tot hs c⟩ with
      | exn m2 =>
        have hred1 : sendChunks net1 url key nc tot hs (chunk :: rest) c st1 cnt =
            (addErr st1 key m1, cnt + 1,
              [⟨url, key, chunk, mkChunkHeaders nc tot hs c⟩]) := by
          simp only [sendChunks, hn1]
        have hred2 : sendChunks net2 url key nc tot hs (chunk :: rest) c st2 cnt =
            (addErr st2 key m2, cnt + 1,
              [⟨url, key, chunk, mkChunkHeaders nc tot hs c⟩]) := by
          simp only [sendChunks, hn2]
        rw [hred1, hred2]
        refine ⟨⟨hrel.1, hrel.2.1, ?_⟩, rfl, rfl⟩
        simp only [addErr, List.length_append, List.length_cons, List.length_nil]
        have := hrel.2.2
        omega
      | resp s2 b2 t2 =>
        rw [hn1, hn2] at hso
        simp [sameOutcome] at hso
    | resp s1 b1 t1 =>
      cases hn2 : net2 cnt ⟨url, key, chunk, mkChunkHeaders nc tot hs c⟩ with
      | exn m2 =>
        rw [hn1, hn2] at hso
        cases b1 <;> simp [sameOutcome] at hso
      | resp s2 b2 t2 =>
        rw [hn1, hn2] at hso
        have hcr := collect_rel key s1 s2 b1 t1 t2 st1 st2 hrel
        cases b1 with
        | none =>
          cases b2 with
          | some w => simp [sameOutcome] at hso
          | none =>
            rcases hc1 : _collect_response key s1 none t1 st1 with ⟨st1a, r1⟩
            rcases hc2 : _collect_response key s2 none t2 st2 with ⟨st2a, r2⟩
            have hrel2 : stRel st1a st2a := by
              have := hcr.1
              rw [hc1, hc2] at this
              exact this
            have hrr : r1 = r2 := by
              have := hcr.2
              rw [hc1, hc2] at this
              exact this
            have hr1 : r1 = none := by
              have : (_collect_response key s1 none t1 st1).2 = none := rfl
              rw [hc1] at this
              exact this
            subst hrr
            subst hr1
            have hred1 : sendChunks net1 url key nc tot hs (chunk :: rest) c st1 cnt =
                (let r := sendChunks net1 url key nc tot hs rest (c + 1) st1a (cnt + 1)
                 (r.1, r.2.1, ⟨url, key, chunk, mkChunkHeaders nc tot hs c⟩ :: r.2.2)) := by
              simp only [sendChunks, hn1, hc1]
            have hred2 : sendChunks net2 url key nc tot hs (chunk :: rest) c st2 cnt =
                (let r := sendChunks net2 url key nc tot hs rest (c + 1) st2a (cnt + 1)
                 (r.1, r.2.1, ⟨url, key, chunk, mkChunkHeaders nc tot hs c⟩ :: r.2.2)) := by
              simp only [sendChunks, hn2, hc2]
            rw [hred1, hred2]
            obtain ⟨ihrel, ihcnt, ihtr⟩ := ih (c + 1) st1a st2a (cnt + 1) hrel2
            exact ⟨ihrel, by simp only [ihcnt], by simp only [ihtr]⟩
        | some v =>
          cases b2 with
          | none => simp [sameOutcome] at hso
          | some w =>
            simp only [sameOutcome] at hso
            subst hso
            rcases hc1 : _collect_response key s1 (some v) t1 st1 with ⟨st1a, r1⟩
            rcases hc2 : _collect_response key s2 (some v) t2 st2 with ⟨st2a, r2⟩
            have hrel2 : stRel st1a st2a := by
              have := hcr.1
              rw [hc1, hc2] at this
              exact this
            have hrr : r1 = r2 := by
              have := hcr.2
              rw [hc1, hc2] at this
              exact this
            subst hrr
            cases r1 with
            | none =>
              have hred1 : sendChunks net1 url key nc tot hs (chunk :: rest) c st1 cnt =
                  (let r := sendChunks net1 url key nc tot hs rest (c + 1) st1a (cnt + 1)
                   (r.1, r.2.1,
                    ⟨url, key, chunk, mkChunkHeaders nc tot hs c⟩ :: r.2.2)) := by
                simp only [sendChunks, hn1, hc1]
              have hred2 : sendChunks net2 url key nc tot hs (chunk :: rest) c st2 cnt =
                  (let r := sendChunks net2 url key nc tot hs rest (c + 1) st2a (cnt + 1)
                   (r.1, r.2.1,
                    ⟨url, key, chunk, mkChunkHeaders nc tot hs c⟩ :: r.2.2)) := by
                simp only [sendChunks, hn2, hc2]
              rw [hred1, hred2]
              obtain ⟨ihrel, ihcnt, ihtr⟩ := ih (c + 1) st1a st2a (cnt + 1) hrel2
              exact ⟨ihrel, by simp only [ihcnt], by simp only [ihtr]⟩
            | some e =>
              have hred1 : sendChunks net1 url key nc tot hs (chunk :: rest) c st1 cnt =
                  (addErr st1a key e, cnt + 1,
                    [⟨url, key, chunk, mkChunkHeaders nc tot hs c⟩]) := by
                simp only [sendChunks, hn1, hc1]
              have hred2 : sendChunks net2 url key nc tot hs (chunk :: rest) c st2 cnt =
                  (addErr st2a key e, cnt + 1,
                    [⟨url, key, chunk, mkChunkHeaders nc tot hs c⟩]) := by
                simp only [sendChunks, hn2, hc2]
              rw [hred1, hred2]
              refine ⟨⟨hrel2.1, hrel2.2.1, ?_⟩, rfl, rfl⟩
              simp only [addErr, List.length_append, List.length_cons, List.length_nil]
              have := hrel2.2.2
              omega

theorem processDataset_rel (net1 net2 : Nat → SyncRequest → NetResult) (url key : String)
    (rows : List Json) (H : ∀ i r, sameOutcome (net1 i r) (net2 i r)) :
    ∀ (st1 st2 : SyncState) (cnt : Nat), stRel st1 st2 →
      stRel (processDataset net1 url key rows st1 cnt).1
            (processDataset net2 url key rows st2 cnt).1 ∧
      (processDataset net1 url key rows st1 cnt).2.1 =
        (processDataset net2 url key rows st2 cnt).2.1 ∧
      (processDataset net1 url key rows st1 cnt).2.2 =
        (processDataset net2 url key rows st2 cnt).2.2 := by
  intro st1 st2 cnt hrel
  by_cases hsize : rows.length ≤ CHUNK_ROWS
  · have hso := H cnt ⟨url, key, rows, [("Content-Type", "application/json")]⟩
    cases hn1 : net1 cnt ⟨url, key, rows, [("Content-Type", "application/json")]⟩ with
    | exn m1 =>
      cases hn2 : net2 cnt ⟨url, key, rows, [("Content-Type", "application/json")]⟩ with
      | exn m2 =>
        have hred1 : processDataset net1 url key rows st1 cnt =
            (addErr st1 key m1, cnt + 1,
              [⟨url, key, rows, [("Content-Type", "application/json")]⟩]) := by
          simp only [processDataset, if_pos hsize, hn1]
        have hred2 : processDataset net2 url key rows st2 cnt =
            (addErr st2 key m2, cnt + 1,
              [⟨url, key, rows, [("Content-Type", "application/json")]⟩]) := by
          simp only [processDataset, if_pos hsize, hn2]
        rw [hred1, hred2]
        refine ⟨⟨hrel.1, hrel.2.1, ?_⟩, rfl, rfl⟩
        simp only [addErr, List.length_append, List.length_cons, List.length_nil]
        have := hrel.2.2
        omega
      | resp s2 b2 t2 =>
        rw [hn1, hn2] at hso
        simp [sameOutcome] at hso
    | resp s1 b1 t1 =>
      cases hn2 : net2 cnt ⟨url, key, rows, [("Content-Type", "application/json")]⟩ with
      | exn m2 =>
        rw [hn1, hn2] at hso
        cases b1 <;> simp [sameOutcome] at hso
      | resp s2 b2 t2 =>
        rw [hn1, hn2] at hso
        have hsame : b1 = b2 ∨ (b1 = none ∧ b2 = none) := by
          cases b1 with
          | none =>
            cases b2 with
            | none => exact Or.inr ⟨rfl, rfl⟩
            | some w => simp [sameOutcome] at hso
          | some v =>
            cases b2 with
            | none => simp [sameOutcome] at hso
            | some w =>
              simp only [sameOutcome] at hso
              subst hso
              exact Or.inl rfl
        have hb12 : b1 = b2 := by
          rcases hsame with h | ⟨h1, h2⟩
          · exact h
          · rw [h1, h2]
        subst hb12
        have hcr := collect_rel key s1 s2 b1 t1 t2 st1 st2 hrel
        rcases hc1 : _collect_response key s1 b1 t1 st1 with ⟨st1a, r1⟩
        rcases hc2 : _collect_response key s2 b1 t2 st2 with ⟨st2a, r2⟩
        have hrel2 : stRel st1a st2a := by
          have := hcr.1
          rw [hc1, hc2] at this
          exact this
        have hrr : r1 = r2 := by
          have := hcr.2
          rw [hc1, hc2] at this
          exact this
        subst hrr
        cases r1 with
        | none =>
          have hred1 : processDataset net1 url key rows st1 cnt =
              (st1a, cnt + 1,
                [⟨url, key, rows, [("Content-Type", "application/json")]⟩]) := by
            simp only [processDataset, if_pos hsize, hn1, hc1]
          have hred2 : processDataset net2 url key rows st2 cnt =
              (st2a, cnt + 1,
                [⟨url, key, rows, [("Content-Type", "application/json")]⟩]) := by
            simp only [processDataset, if_pos hsize, hn2, hc2]
          rw [hred1, hred2]
          exact ⟨hrel2, rfl, rfl⟩
        | some e =>
          have hred1 : processDataset net1 url key rows st1 cnt =
              (addErr st1a key e, cnt + 1,
                [⟨url, key, rows, [("Content-Type", "application/json")]⟩]) := by
            simp only [processDataset, if_pos hsize, hn1, hc1]
          have hred2 : processDataset net2 url key rows st2 cnt =
              (addErr st2a key e, cnt + 1,
                [⟨url, key, rows, [("Content-Type", "application/json")]⟩]) := by
            simp only [processDataset, if_pos hsize, hn2, hc2]
          rw [hred1, hred2]
          refine ⟨⟨hrel2.1, hrel2.2.1, ?_⟩, rfl, rfl⟩
          simp only [addErr, List.length_append, List.length_cons, List.length_nil]
          have := hrel2.2.2
          omega
  · rw [processDataset_chunked net1 url key rows st1 cnt hsize,
      processDataset_chunked net2 url key rows st2 cnt hsize]
    exact sendChunks_rel net1 net2 url key _ _ _ H _ 0 st1 st2 cnt hrel

theorem syncLoop_rel (net1 net2 : Nat → SyncRequest → NetResult) (url : String)
    (H : ∀ i r, sameOutcome (net1 i r) (net2 i r)) :
    ∀ (payload : List (String × List Json)) (st1 st2 : SyncState) (cnt : Nat),
      stRel st1 st2 →
      stRel (syncLoop net1 url payload st1 cnt).1 (syncLoop net2 url payload st2 cnt).1 ∧
      (syncLoop net1 url payload st1 cnt).2.1 = (syncLoop net2 url payload st2 cnt).2.1 ∧
      (syncLoop net1 url payload st1 cnt).2.2 = (syncLoop net2 url payload st2 cnt).2.2 := by
  intro payload
  induction payload with
  | nil => intro st1 st2 cnt hrel; exact ⟨hrel, rfl, rfl⟩
  | cons p rest ih =>
    intro st1 st2 cnt hrel
    rcases p with ⟨key, rows⟩
    obtain ⟨prel, pcnt, ptr⟩ := processDataset_rel net1 net2 url key rows H st1 st2 cnt hrel
    obtain ⟨lrel, lcnt, ltr⟩ := ih (processDataset net1 url key rows st1 cnt).1
      (processDataset net2 url key rows st2 cnt).1
      (processDataset net1 url key rows st1 cnt).2.1 prel
    refine ⟨?_, ?_, ?_⟩
    · show stRel
        (syncLoop net1 url rest (processDataset net1 url key rows st1 cnt).1
          (processDataset net1 url key rows st1 cnt).2.1).1
        (syncLoop net2 url rest (processDataset net2 url key rows st2 cnt).1
          (processDataset net2 url key rows st2 cnt).2.1).1
      rw [← pcnt]
      exact lrel
    · show (syncLoop net1 url rest (processDataset net1 url key rows st1 cnt).1
          (processDataset net1 url key rows st1 cnt).2.1).2.1 =
        (syncLoop net2 url rest (processDataset net2 url key rows st2 cnt).1
          (processDataset net2 url key rows st2 cnt).2.1).2.1
      rw [← pcnt]
      exact lcnt
    · show (processDataset net1 url key rows st1 cnt).2.2 ++
        (syncLoop net1 url rest (processDataset net1 url key rows st1 cnt).1
          (processDataset net1 url key rows st1 cnt).2.1).2.2 =
        (processDataset net2 url key rows st2 cnt).2.2 ++
        (syncLoop net2 url rest (processDataset net2 url key rows st2 cnt).1
          (processDataset net2 url key rows st2 cnt).2.1).2.2
      rw [← pcnt, ptr, ltr]

theorem isEmpty_eq_of_length_eq {l1 l2 : List Json} (h : l1.length = l2.length) :
    l1.isEmpty = l2.isEmpty := by
  cases l1 <;> cases l2 <;> simp_all

theorem collectCore_errors_of_not_truthy (v : Json) (h : hasTruthyErrors v = false) :
    (collectCore v).errors = [] := by
  cases v with
  | obj fs =>
    rcases hs : pyIter ((dictLookup fs "synced").getD (.arr [])) with es | xs
    · simp [collectCore, pyGet, hs]
    rcases hk : pyIter ((dictLookup fs "skipped").getD (.arr [])) with ek | ys
    · simp [collectCore, pyGet, hs, hk]
    rcases he : dictLookup fs "errors" with _ | ev
    · simp [collectCore, pyGet, hs, hk, he]
    · have hf : isTruthy ev = false := by
        simp only [hasTruthyErrors, he] at h
        exact h
      simp [collectCore, pyGet, hs, hk, he, hf]
  | null => simp [collectCore, pyGet]
  | bool b => simp [collectCore, pyGet]
  | num n => simp [collectCore, pyGet]
  | str s => simp [collectCore, pyGet]
  | arr xs => simp [collectCore, pyGet]

/-- C10 (amended): the HTTP status code never affects the run's outcome —
for two network oracles that agree on every request up to status code and
raw text (same raised/responded shape, same parsed body), `post_sync`
returns the same success flag, synced rows, skipped rows, number of error
records, and request trace. And a response whose body parses as a JSON
*object* with no non-empty `"errors"` field and whose field extraction
raises nothing contributes zero error records at any status. (The original
"any response whose body parses as JSON" is too broad: a non-object JSON
body makes `data.get` raise `AttributeError`, which the caller records as
an error even at status 200.) -/
theorem c10_status_blind_amended (net1 net2 : Nat → SyncRequest → NetResult)
    (base_url : String) (payload : List (String × List Json))
    (H : ∀ i r, sameOutcome (net1 i r) (net2 i r)) :
    ((post_sync net1 base_url payload).1.success =
        (post_sync net2 base_url payload).1.success ∧
      (post_sync net1 base_url payload).1.synced =
        (post_sync net2 base_url payload).1.synced ∧
      (post_sync net1 base_url payload).1.skipped =
        (post_sync net2 base_url payload).1.skipped ∧
      ((post_sync net1 base_url payload).1.errors.getD []).length =
        ((post_sync net2 base_url payload).1.errors.getD []).length ∧
      (post_sync net1 base_url payload).2 = (post_sync net2 base_url payload).2) ∧
    (∀ (key : String) (s : Nat) (t : String) (fs : List (String × Json))
        (st : SyncState),
      hasTruthyErrors (.obj fs) = false →
      (collectCore (.obj fs)).raised = none →
      (_collect_response key s (some (.obj fs)) t st).1.errors = st.errors ∧
      (_collect_response key s (some (.obj fs)) t st).2 = none) := by
  constructor
  · obtain ⟨lrel, -, ltr⟩ := syncLoop_rel net1 net2
      (pyRstripSlashes base_url ++ "/api/leasing/sync") H payload
      ⟨[], [], []⟩ ⟨[], [], []⟩ 0 ⟨rfl, rfl, rfl⟩
    obtain ⟨hsy, hsk, hlen⟩ := lrel
    refine ⟨?_, ?_, ?_, ?_, ?_⟩
    · show (syncLoop net1 (pyRstripSlashes base_url ++ "/api/leasing/sync") payload
          ⟨[], [], []⟩ 0).1.errors.isEmpty =
        (syncLoop net2 (pyRstripSlashes base_url ++ "/api/leasing/sync") payload
          ⟨[], [], []⟩ 0).1.errors.isEmpty
      exact isEmpty_eq_of_length_eq hlen
    · exact hsy
    · exact hsk
    · show ((if (syncLoop net1 (pyRstripSlashes base_url ++ "/api/leasing/sync") payload
            ⟨[], [], []⟩ 0).1.errors.isEmpty then none
          else some (syncLoop net1 (pyRstripSlashes base_url ++ "/api/leasing/sync")
            payload ⟨[], [], []⟩ 0).1.errors).getD []).length =
        ((if (syncLoop net2 (pyRstripSlashes base_url ++ "/api/leasing/sync") payload
            ⟨[], [], []⟩ 0).1.errors.isEmpty then none
          else some (syncLoop net2 (pyRstripSlashes base_url ++ "/api/leasing/sync")
            payload ⟨[], [], []⟩ 0).1.errors).getD []).length
      by_cases he : (syncLoop net1 (pyRstripSlashes base_url ++ "/api/leasing/sync")
          payload ⟨[], [], []⟩ 0).1.errors.isEmpty
      · have he2 := (isEmpty_eq_of_length_eq hlen).symm.trans he
        simp [he, he2]
      · have he2 : (syncLoop net2 (pyRstripSlashes base_url ++ "/api/leasing/sync")
            payload ⟨[], [], []⟩ 0).1.errors.isEmpty = false := by
          rw [← isEmpty_eq_of_length_eq hlen]
          exact Bool.eq_false_iff.mpr he
        rw [Bool.eq_false_iff] at he2
        simp [he, he2, hlen]
    · exact ltr
  · intro key s t fs st hte hraise
    constructor
    · show st.errors ++ (collectCore (.obj fs)).errors = st.errors
      rw [collectCore_errors_of_not_truthy _ hte, List.append_nil]
    · exact hraise

/-- Witness for C10 (amended): two oracles answering the same parsed body
at statuses 200 and 503 give identical outcomes on a one-dataset payload,
and a plain `{"synced": ["a"]}` body at status 503 adds no error
record. -/
theorem c10_status_blind_amended_witness :
    ((post_sync (fun _ _ => .resp 200 (some (.obj [("synced", .arr [.str "a"])])) "ok")
        "http://x" [("leasing", [Json.null])]).1.success =
      (post_sync (fun _ _ => .resp 503 (some (.obj [("synced", .arr [.str "a"])])) "oops")
        "http://x" [("leasing", [Json.null])]).1.success ∧
     (post_sync (fun _ _ => .resp 200 (some (.obj [("synced", .arr [.str "a"])])) "ok")
        "http://x" [("leasing", [Json.null])]).1.synced =
      (post_sync (fun _ _ => .resp 503 (some (.obj [("synced", .arr [.str "a"])])) "oops")
        "http://x" [("leasing", [Json.null])]).1.synced ∧
     (post_sync (fun _ _ => .resp 200 (some (.obj [("synced", .arr [.str "a"])])) "ok")
        "http://x" [("leasing", [Json.null])]).1.skipped =
      (post_sync (fun _ _ => .resp 503 (some (.obj [("synced", .arr [.str "a"])])) "oops")
        "http://x" [("leasing", [Json.null])]).1.skipped ∧
     ((post_sync (fun _ _ => .resp 200 (some (.obj [("synced", .arr [.str "a"])])) "ok")
        "http://x" [("leasing", [Json.null])]).1.errors.getD []).length =
      ((post_sync (fun _ _ => .resp 503 (some (.obj [("synced", .arr [.str "a"])])) "oops")
        "http://x" [("leasing", [Json.null])]).1.errors.getD []).length ∧
     (post_sync (fun _ _ => .resp 200 (some (.obj [("synced", .arr [.str "a"])])) "ok")
        "http://x" [("leasing", [Json.null])]).2 =
      (post_sync (fun _ _ => .resp 503 (some (.obj [("synced", .arr [.str "a"])])) "oops")
        "http://x" [("leasing", [Json.null])]).2) ∧
    ((_collect_response "leasing" 503 (some (.obj [("synced", .arr [.str "a"])])) "oops"
        ⟨[], [], []⟩).1.errors = [] ∧
     (_collect_response "leasing" 503 (some (.obj [("synced", .arr [.str "a"])])) "oops"
        ⟨[], [], []⟩).2 = none) := by
  have h := c10_status_blind_amended
    (fun _ _ => .resp 200 (some (.obj [("synced", .arr [.str "a"])])) "ok")
    (fun _ _ => .resp 503 (some (.obj [("synced", .arr [.str "a"])])) "oops")
    "http://x" [("leasing", [Json.null])] (fun _ _ => rfl)
  exact ⟨h.1, h.2 "leasing" 503 "oops" [("synced", .arr [.str "a"])] ⟨[], [], []⟩ rfl rfl⟩

end DomoSync
